import Mathlib

/-!
# ImageResizeHandles: a shallow embedding

The React component `src/components/ImageResizeHandles.jsx` is embedded as explicit
state passing.  One value of `State` holds the component's `useState` cells, the
`dragStartRef` ref, the three `document.body.style` properties the component writes,
the closure of the current run of the drag effect (`Session`), the inline width last
written to the image element, and the log of `setImageWidth` commands issued.

Numbers.  Mouse coordinates and DOM rectangle sides are finite JavaScript numbers and
are modelled as rationals; arithmetic on them is exact (the rounding of individual
IEEE-754 operations is not modelled).  A height can be the result of a division by
zero, so heights range over `JSNum`, which adds the two infinities and NaN.  Zero is
unsigned.
-/

namespace ImageResizeHandles

/-! ## JavaScript numbers -/

/-- A JavaScript number: a finite value, an infinity, or NaN. -/
inductive JSNum where
  | fin (q : ℚ)
  | posInf
  | negInf
  | nan
  deriving DecidableEq

/-- Division `a / b` of JavaScript numbers. -/
def JSNum.div : JSNum → JSNum → JSNum
  | .nan, _ => .nan
  | _, .nan => .nan
  | .fin a, .fin b =>
      if b = 0 then (if a = 0 then .nan else if 0 < a then .posInf else .negInf)
      else .fin (a / b)
  | .fin _, .posInf => .fin 0
  | .fin _, .negInf => .fin 0
  | .posInf, .fin b => if b < 0 then .negInf else .posInf
  | .negInf, .fin b => if b < 0 then .posInf else .negInf
  | .posInf, .posInf => .nan
  | .posInf, .negInf => .nan
  | .negInf, .posInf => .nan
  | .negInf, .negInf => .nan

/-- The function `Math.round` on a finite number: nearest integer, ties towards
positive infinity. -/
def mathRound (q : ℚ) : ℤ := ⌊q + 1 / 2⌋

/-- The function `Math.round` on any JavaScript number. -/
def JSNum.round : JSNum → JSNum
  | .fin q => .fin (mathRound q)
  | .posInf => .posInf
  | .negInf => .negInf
  | .nan => .nan

/-- The template literal that appends `px` to an integer-valued number, in decimal
digits (JavaScript switches to exponent form from `1e21` on, which is not modelled). -/
def px (n : ℤ) : String := toString n ++ "px"

/-! ## The editor as the component observes it -/

/-- The result of reading a property or calling a method that may raise. -/
inductive Access (α : Type) where
  | raises
  | value (a : α)
  deriving DecidableEq

/-- A DOM rectangle, as returned by `getBoundingClientRect`. -/
structure Rect where
  top : ℚ
  left : ℚ
  width : ℚ
  height : ℚ
  deriving DecidableEq

/-- What `view.nodeDOM(from)` returned.  For an `HTMLElement`, `tagIsImg` is
`domNode.tagName === 'IMG'`, `innerImg` tells whether `domNode.querySelector('img')`
finds an element, and `rect` is the bounding rectangle of
`domNode.querySelector('img') || domNode`. -/
inductive DomNode where
  | null
  | nonElement
  | element (tagIsImg : Bool) (innerImg : Bool) (rect : Rect)
  deriving DecidableEq

/-- The editor object at the moment a handler runs.  `nodeAt` is the type name of
`state.doc.nodeAt(selection.from)` (`none` for a null node). -/
structure Editor where
  hasView : Bool
  isDestroyed : Bool
  dom : Access Bool
  nodeAt : Access (Option String)
  nodeDOM : Access DomNode
  editorRect : Rect
  deriving DecidableEq

/-- The test `node && node.type.name === 'imageResize'`. -/
def isImage (node : Option String) : Bool :=
  match node with
  | some name => name == "imageResize"
  | none => false

/-- The guard of `handleMouseUp`:
`editor && !editor.isDestroyed && editor.view && editor.view.dom`, evaluated inside
a `try` whose `catch` skips the command. -/
def Editor.usable (ed : Editor) : Bool :=
  !ed.isDestroyed && ed.hasView &&
    (match ed.dom with
     | .value b => b
     | .raises => false)

/-! ## Component state -/

/-- The four corner handles. -/
inductive Handle where
  | nw
  | ne
  | sw
  | se
  deriving DecidableEq

/-- The fields of a mouse event that the handlers read. -/
structure MouseEvent where
  clientX : ℚ
  clientY : ℚ
  deriving DecidableEq

/-- The state cell `imagePosition`. -/
structure Box where
  top : ℚ
  left : ℚ
  width : ℚ
  height : JSNum
  deriving DecidableEq

/-- The contents of `dragStartRef.current`. -/
structure DragStart where
  x : ℚ
  y : ℚ
  width : ℚ
  height : JSNum
  deriving DecidableEq

/-- The properties of `document.body.style` written by the component. -/
structure BodyStyle where
  userSelect : String
  webkitUserSelect : String
  cursor : String
  deriving DecidableEq

/-- The local variables of one run of the drag effect, shared by the listeners it
registers.  `rafId` holds the pending animation-frame callback, that is the pair
`(roundedWidth, roundedHeight)` it closes over; `imgElement` tells whether
`imgElement instanceof HTMLImageElement`; `activeHandle` is the value captured by
the closure. -/
structure Session where
  rafId : Option (ℤ × JSNum)
  imgElement : Bool
  finalWidth : Option ℤ
  activeHandle : Option Handle
  deriving DecidableEq

/-- The whole state of the component and of what it writes to. -/
structure State where
  showHandles : Bool
  imagePosition : Box
  isDragging : Bool
  activeHandle : Option Handle
  dragStartRef : DragStart
  isDestroyed : Bool
  body : BodyStyle
  session : Option Session
  imgStyleWidth : Option String
  setImageWidthCalls : List String
  deriving DecidableEq

/-- The state at mount. -/
def State.init : State :=
  { showHandles := false
    imagePosition := ⟨0, 0, 0, .fin 0⟩
    isDragging := false
    activeHandle := none
    dragStartRef := ⟨0, 0, 0, .fin 0⟩
    isDestroyed := false
    body := ⟨"", "", ""⟩
    session := none
    imgStyleWidth := none
    setImageWidthCalls := [] }

/-! ## The handlers -/

/-- The function `updateHandles`, the listener of `selectionUpdate` and `update`. -/
def updateHandles (ed : Editor) (s : State) : State :=
  if !ed.hasView || ed.isDestroyed then { s with showHandles := false }
  else
    match ed.dom with
    | .raises => { s with showHandles := false }
    | .value false => { s with showHandles := false }
    | .value true =>
      match ed.nodeAt with
      | .raises => { s with showHandles := false }
      | .value node =>
        if isImage node then
          match ed.nodeDOM with
          | .raises => { s with showHandles := false }
          | .value (.element _ _ rect) =>
              { s with
                imagePosition :=
                  { top := rect.top - ed.editorRect.top
                    left := rect.left - ed.editorRect.left
                    width := rect.width
                    height := .fin rect.height }
                showHandles := true }
          | .value _ => s
        else { s with showHandles := false }

/-- The function `handleMouseDown`; `targetCursor` is `e.target.style.cursor`. -/
def handleMouseDown (handle : Handle) (e : MouseEvent) (targetCursor : String)
    (s : State) : State :=
  { s with
    isDragging := true
    activeHandle := some handle
    body :=
      { userSelect := "none"
        webkitUserSelect := "none"
        cursor := if targetCursor = "" then "nwse-resize" else targetCursor }
    dragStartRef :=
      { x := e.clientX
        y := e.clientY
        width := s.imagePosition.width
        height := s.imagePosition.height } }

/-- The body of the drag effect up to the registration of the listeners.  The state
handed in has no listeners registered (`session = none`). -/
def dragEffect (ed : Editor) (s : State) : State :=
  if !s.isDragging then s
  else if !ed.hasView then { s with isDragging := false }
  else
    match ed.dom with
    | .raises => { s with isDragging := false }
    | .value false => { s with isDragging := false }
    | .value true =>
      if ed.isDestroyed then { s with isDragging := false }
      else
        match ed.nodeAt with
        | .raises => { s with isDragging := false }
        | .value node =>
          if isImage node then
            match ed.nodeDOM with
            | .raises => { s with isDragging := false }
            | .value (.element tagIsImg innerImg _) =>
                { s with
                  session := some ⟨none, tagIsImg || innerImg, none, s.activeHandle⟩ }
            | .value _ => { s with session := some ⟨none, false, none, s.activeHandle⟩ }
          else { s with session := some ⟨none, false, none, s.activeHandle⟩ }

/-- The switch of `handleMouseMove`: the new width before the minimum is enforced. -/
def unclampedWidth (activeHandle : Option Handle) (start : DragStart)
    (e : MouseEvent) : ℚ :=
  let deltaX := e.clientX - start.x
  match activeHandle with
  | some .nw => start.width - deltaX
  | some .ne => start.width + deltaX
  | some .sw => start.width - deltaX
  | some .se => start.width + deltaX
  | none => start.width

/-- The values of `newWidth` and `newHeight` in `handleMouseMove` after the minimum
size is enforced. -/
def newSize (activeHandle : Option Handle) (start : DragStart) (e : MouseEvent) :
    ℚ × JSNum :=
  let newWidth := unclampedWidth activeHandle start e
  let aspectRatio := JSNum.div (.fin start.width) start.height
  let newHeight := JSNum.div (.fin newWidth) aspectRatio
  let minSize : ℚ := 50
  if newWidth < minSize then (minSize, JSNum.div (.fin minSize) aspectRatio)
  else (newWidth, newHeight)

/-- The pair `(roundedWidth, roundedHeight)` of `handleMouseMove`. -/
def roundedSize (activeHandle : Option Handle) (start : DragStart) (e : MouseEvent) :
    ℤ × JSNum :=
  let n := newSize activeHandle start e
  (mathRound n.1, n.2.round)

/-- The function `handleMouseMove`: it records `finalWidth` and replaces the pending
animation frame by one that closes over the new rounded size. -/
def handleMouseMove (e : MouseEvent) (start : DragStart) (c : Session) : Session :=
  let r := roundedSize c.activeHandle start e
  { c with finalWidth := some r.1, rafId := some r }

/-- The callback handed to `requestAnimationFrame`, when one is pending. -/
def animationFrame (s : State) (c : Session) : State :=
  match c.rafId with
  | none => s
  | some (roundedWidth, roundedHeight) =>
    { s with
      imgStyleWidth := if c.imgElement then some (px roundedWidth) else s.imgStyleWidth
      imagePosition :=
        { s.imagePosition with width := roundedWidth, height := roundedHeight }
      session := some { c with rafId := none } }

/-- The function `handleMouseUp`.  The command is issued when `finalWidth` is truthy
(neither `null` nor zero), the image element was resolved and the editor passes the
guard. -/
def handleMouseUp (ed : Editor) (s : State) (c : Session) : State :=
  { s with
    body := ⟨"", "", ""⟩
    setImageWidthCalls :=
      match c.finalWidth with
      | some w =>
          if w != 0 && c.imgElement && ed.usable then
            s.setImageWidthCalls ++ [px w]
          else s.setImageWidthCalls
      | none => s.setImageWidthCalls
    isDragging := false
    activeHandle := none
    session := some { c with rafId := none } }

/-! ## Events -/

/-- After a handler changed the state from `before` to `after`, React re-runs the
drag effect when one of its dependencies `isDragging`, `activeHandle` changed: the
clean-up removes the listeners and cancels the pending frame, then the body runs. -/
def rerunDragEffect (ed : Editor) (before after : State) : State :=
  if before.isDragging = after.isDragging ∧ before.activeHandle = after.activeHandle
  then after
  else dragEffect ed { after with session := none }

/-- What can happen to a mounted component. -/
inductive Event where
  | editorUpdate (ed : Editor)
  | mouseDown (handle : Handle) (e : MouseEvent) (targetCursor : String) (ed : Editor)
  | mouseMove (e : MouseEvent)
  | frame
  | mouseUp (ed : Editor)
  | unmount

/-- One event.  A handle can be pressed only while the handles are rendered, and
the document listeners and the frame callback exist only while a session is
registered. -/
def step (s : State) : Event → State
  | .editorUpdate ed => if s.isDestroyed then s else updateHandles ed s
  | .mouseDown handle e targetCursor ed =>
      if s.showHandles && !s.isDestroyed then
        rerunDragEffect ed s (handleMouseDown handle e targetCursor s)
      else s
  | .mouseMove e =>
      match s.session with
      | some c => { s with session := some (handleMouseMove e s.dragStartRef c) }
      | none => s
  | .frame =>
      match s.session with
      | some c => animationFrame s c
      | none => s
  | .mouseUp ed =>
      match s.session with
      | some c => rerunDragEffect ed s (handleMouseUp ed s c)
      | none => s
  | .unmount => { s with isDestroyed := true, showHandles := false, session := none }

/-- A sequence of events, oldest first. -/
def run (s : State) (evs : List Event) : State := evs.foldl step s

/-! ## Vocabulary for traces -/

/-- The events that may arrive between pointer-down and pointer-up of one drag:
pointer moves, animation frames, and selection or document updates of the editor. -/
def Event.duringDrag : Event → Bool
  | .mouseMove _ => true
  | .frame => true
  | .editorUpdate _ => true
  | _ => false

/-- The last pointer-move event of a trace, if there is one. -/
def lastMove : List Event → Option MouseEvent
  | [] => none
  | ev :: evs =>
      match lastMove evs with
      | some e => some e
      | none =>
          match ev with
          | .mouseMove e => some e
          | _ => none

/-- The guards that the drag effect checks before it registers its listeners: the
view and its DOM are readable and present, the editor is not destroyed, and neither
`nodeAt` nor (for an image node) `nodeDOM` raises. -/
def Editor.setupPasses (ed : Editor) : Bool :=
  ed.usable &&
    (match ed.nodeAt with
     | .raises => false
     | .value node =>
         if isImage node then
           (match ed.nodeDOM with
            | .raises => false
            | .value _ => true)
         else true)

/-- Whether the drag effect resolves `imgElement` to an image element. -/
def Editor.resolvesImage (ed : Editor) : Bool :=
  match ed.nodeAt, ed.nodeDOM with
  | .value node, .value (.element tagIsImg innerImg _) =>
      isImage node && (tagIsImg || innerImg)
  | _, _ => false


/-! ## Sample inputs -/

/-- A mounted editor whose selection is on an image node rendered as an `img`
element of 200 x 100 at (30, 40), the editing surface starting at (20, 20). -/
def imageEditor : Editor :=
  { hasView := true
    isDestroyed := false
    dom := .value true
    nodeAt := .value (some "imageResize")
    nodeDOM := .value (.element true false ⟨30, 40, 200, 100⟩)
    editorRect := ⟨20, 20, 800, 600⟩ }

/-- The same editor with the selection inside a text node. -/
def textEditor : Editor :=
  { imageEditor with nodeAt := .value (some "text"), nodeDOM := .value .nonElement }

/-- The same editor with the selection on a second image, of 64 x 64 at (200, 40). -/
def otherImageEditor : Editor :=
  { imageEditor with nodeDOM := .value (.element true false ⟨200, 40, 64, 64⟩) }

/-- A destroyed editor: `isDestroyed` is true and the accessors raise. -/
def destroyedEditor : Editor :=
  { hasView := true
    isDestroyed := true
    dom := .raises
    nodeAt := .raises
    nodeDOM := .raises
    editorRect := ⟨0, 0, 0, 0⟩ }

/-- The component after mount and one update event of `imageEditor`: handles shown
around a 200 x 100 box. -/
def selectedState : State := step State.init (.editorUpdate imageEditor)

/-- The editor of `imageEditor` when `view.nodeDOM(from)` returns null. -/
def nullDomEditor : Editor := { imageEditor with nodeDOM := .value .null }

/-- The editor of `imageEditor` when `view.nodeDOM(from)` returns a node that is not
an `HTMLElement`. -/
def nonElementDomEditor : Editor := { imageEditor with nodeDOM := .value .nonElement }

end ImageResizeHandles

/-!
# The ImageResize node extension

`src/extensions/ImageResize.js`: the attributes of the `imageResize` node with their
parse and render rules, and the three commands.  An attribute value is `null` or a
string (`Option String`).  The editing framework that calls these rules and provides
`commands` is a third-party library outside the repository; what is used of it is
stated where it is used.
-/

namespace ImageResize

/-- The name of the node type. -/
def name : String := "imageResize"

/-- JavaScript truthiness of a value that is `null` or a string. -/
def truthy (v : Option String) : Bool :=
  match v with
  | some s => s != ""
  | none => false

/-- The attributes of an `imageResize` node. -/
structure Attrs where
  src : Option String
  alt : Option String
  title : Option String
  width : Option String
  dataAlign : Option String
  deriving DecidableEq

/-- An `img` element as the parse rules read it: its attributes in document order and
the value of `element.style.width` (the empty string when the inline style sets no
width). -/
structure ImgElement where
  attrs : List (String × String)
  styleWidth : String
  deriving DecidableEq

/-- The method `element.getAttribute(name)`. -/
def ImgElement.getAttribute (element : ImgElement) (attr : String) : Option String :=
  element.attrs.lookup attr

/-- The rule `parseHTML` of `src`. -/
def parseSrc (element : ImgElement) : Option String := element.getAttribute "src"

/-- The rule `parseHTML` of `alt`. -/
def parseAlt (element : ImgElement) : Option String := element.getAttribute "alt"

/-- The rule `parseHTML` of `title`. -/
def parseTitle (element : ImgElement) : Option String := element.getAttribute "title"

/-- The rule `parseHTML` of `width`:
`element.getAttribute('width') || element.style.width`, then `width || null`. -/
def parseWidth (element : ImgElement) : Option String :=
  let width : String :=
    if truthy (element.getAttribute "width") then (element.getAttribute "width").getD ""
    else element.styleWidth
  if width != "" then some width else none

/-- The rule `parseHTML` of `dataAlign`:
`element.getAttribute('data-align') || 'center'`. -/
def parseDataAlign (element : ImgElement) : Option String :=
  if truthy (element.getAttribute "data-align") then element.getAttribute "data-align"
  else some "center"

/-- The node parse rule `img[src]` with the attribute rules: an `img` element without
a `src` attribute is not an `imageResize` node. -/
def parseHTML (element : ImgElement) : Option Attrs :=
  if (element.getAttribute "src").isSome then
    some
      { src := parseSrc element
        alt := parseAlt element
        title := parseTitle element
        width := parseWidth element
        dataAlign := parseDataAlign element }
  else none

/-- The rule `renderHTML` shared by `src`, `alt`, `title` and `width`: nothing for a
falsy value, otherwise the attribute. -/
def renderIfTruthy (attr : String) (v : Option String) : List (String × String) :=
  match v with
  | some s => if s != "" then [(attr, s)] else []
  | none => []

/-- The rule `renderHTML` of `dataAlign`, which has no guard.  The serialiser of the
framework leaves out an attribute whose value is `null`. -/
def renderDataAlign (v : Option String) : List (String × String) :=
  match v with
  | some s => [("data-align", s)]
  | none => []

/-- The object `HTMLAttributes` handed to the node's `renderHTML`: the results of the
attribute rules, merged. -/
def HTMLAttributes (a : Attrs) : List (String × String) :=
  renderIfTruthy "src" a.src ++ renderIfTruthy "alt" a.alt ++
    renderIfTruthy "title" a.title ++ renderIfTruthy "width" a.width ++
    renderDataAlign a.dataAlign

/-- The node rule `renderHTML`: the attributes of the `img` element it returns. -/
def renderHTML (a : Attrs) : List (String × String) :=
  let attrs := HTMLAttributes a ++ [("draggable", "false")]
  match attrs.lookup "width" with
  | some w =>
      if w != "" then attrs ++ [("style", "width: " ++ w ++ "; height: auto;")]
      else attrs
  | none => attrs

/-- The element obtained by reading back rendered attributes.  How a browser derives
`style.width` from the text of a `style` attribute is the parameter `cssWidth`;
without a `style` attribute `style.width` is empty. -/
def toElement (cssWidth : String → String) (rendered : List (String × String)) :
    ImgElement :=
  { attrs := rendered
    styleWidth :=
      match rendered.lookup "style" with
      | some style => cssWidth style
      | none => "" }

/-- The object literal handed to `commands.updateAttributes`: which attributes it
names, and with what value. -/
structure AttrPatch where
  width : Option (Option String) := none
  dataAlign : Option (Option String) := none
  deriving DecidableEq

/-- The commands of the framework that the extension calls, on an editor state of
type `σ`; a command returns its boolean result and the new state. -/
structure Commands (σ : Type) where
  insertContent : String → Attrs → σ → Bool × σ
  updateAttributes : String → AttrPatch → σ → Bool × σ

/-- The command `setImage(options)`, for options that give every attribute. -/
def setImage {σ : Type} (commands : Commands σ) (options : Attrs) : σ → Bool × σ :=
  commands.insertContent name options

/-- The command `setImageAlign(align)`. -/
def setImageAlign {σ : Type} (commands : Commands σ) (align : Option String) :
    σ → Bool × σ :=
  commands.updateAttributes name { dataAlign := some align }

/-- The command `setImageWidth(width)`. -/
def setImageWidth {σ : Type} (commands : Commands σ) (width : Option String) :
    σ → Bool × σ :=
  commands.updateAttributes name { width := some width }

/-! ## The framework commands -/

/-- An inline leaf of a document: a run of text or an `imageResize` node. -/
inductive Inline where
  | text (content : String)
  | image (attrs : Attrs)
  deriving DecidableEq

/-- A document as its inline leaves in order, with a selection that covers the leaves
of index `selFrom` up to, not including, `selTo`. -/
structure EditorState where
  doc : List Inline
  selFrom : Nat
  selTo : Nat
  deriving DecidableEq

/-- The object spread `{ ...node.attrs, ...attributes }`. -/
def applyPatch (p : AttrPatch) (a : Attrs) : Attrs :=
  { a with
    width := p.width.getD a.width
    dataAlign := p.dataAlign.getD a.dataAlign }

/-- The leaves from index `i` on, with the patch applied to each image inside the
selection. -/
def patchFrom (p : AttrPatch) (selFrom selTo : Nat) : Nat → List Inline → List Inline
  | _, [] => []
  | i, .image a :: rest =>
      (if selFrom ≤ i ∧ i < selTo then Inline.image (applyPatch p a) else .image a) ::
        patchFrom p selFrom selTo (i + 1) rest
  | i, .text s :: rest => .text s :: patchFrom p selFrom selTo (i + 1) rest

/-- The images inside the selection, from index `i` on. -/
def selectedImagesFrom (selFrom selTo : Nat) : Nat → List Inline → List Attrs
  | _, [] => []
  | i, .image a :: rest =>
      (if selFrom ≤ i ∧ i < selTo then [a] else []) ++
        selectedImagesFrom selFrom selTo (i + 1) rest
  | i, .text _ :: rest => selectedImagesFrom selFrom selTo (i + 1) rest

/-- The images inside the selection. -/
def EditorState.selectedImages (st : EditorState) : List Attrs :=
  selectedImagesFrom st.selFrom st.selTo 0 st.doc

/-- Behaviour of the framework command `updateAttributes` (third-party, not under
`src/`), as the library documents it: for a type of the schema it rewrites the
attributes of every node of that type inside the selection with the object spread and
returns `true`; for a name that is no type of the schema it returns `false`. -/
def frameworkUpdateAttributes (typeName : String) (p : AttrPatch) (st : EditorState) :
    Bool × EditorState :=
  if typeName = name then
    (true, { st with doc := patchFrom p st.selFrom st.selTo 0 st.doc })
  else (false, st)

/-- Behaviour of the framework command `insertContent` for an inline node: the
selection is replaced by the node, which is left selected. -/
def frameworkInsertContent (typeName : String) (attrs : Attrs) (st : EditorState) :
    Bool × EditorState :=
  if typeName = name then
    (true,
      { doc := st.doc.take st.selFrom ++ [Inline.image attrs] ++ st.doc.drop st.selTo
        selFrom := st.selFrom
        selTo := st.selFrom + 1 })
  else (false, st)

/-- The framework commands on `EditorState`. -/
def framework : Commands EditorState :=
  { insertContent := frameworkInsertContent
    updateAttributes := frameworkUpdateAttributes }

/-! ## Vocabulary of the claims -/

/-- One of the four alignment modes. -/
def IsAlignMode (v : Option String) : Prop :=
  v = some "left" ∨ v = some "center" ∨ v = some "right" ∨ v = some "inline"

/-- A positive integer number of pixels, written with or without the unit. -/
def IsPositivePixels (w : String) : Prop :=
  ∃ n : ℕ, 0 < n ∧ (w = toString n ++ "px" ∨ w = toString n)

/-- An inline style of the form `width: <n>px; height: auto;`. -/
def IsPixelWidthStyle (style : String) : Prop :=
  ∃ n : ℕ, style = "width: " ++ toString n ++ "px; height: auto;"

end ImageResize

/-!
# The GradientText mark extension

`src/extensions/GradientText.js`.
-/

namespace GradientText

/-- The name of the mark type. -/
def name : String := "gradientText"

/-- The attributes of a `gradientText` mark. -/
structure Attrs where
  gradient : Option String
  deriving DecidableEq

/-- A `span` element as the parse rule reads it. -/
structure SpanElement where
  attrs : List (String × String)
  deriving DecidableEq

/-- The method `element.getAttribute(name)`. -/
def SpanElement.getAttribute (element : SpanElement) (attr : String) : Option String :=
  element.attrs.lookup attr

/-- The rule `renderHTML` of `gradient`. -/
def renderGradient (a : Attrs) : List (String × String) :=
  match a.gradient with
  | some g =>
      if g != "" then
        [("data-gradient", g),
          ("style",
            "background: " ++ g ++
              "; -webkit-background-clip: text; -webkit-text-fill-color: transparent; background-clip: text;")]
      else []
  | none => []

/-- The mark rule `renderHTML`: the attributes of the `span` it returns, that is
`mergeAttributes(this.options.HTMLAttributes, HTMLAttributes)` with the empty
`options.HTMLAttributes` of `addOptions`. -/
def renderHTML (a : Attrs) : List (String × String) :=
  [] ++ renderGradient a

/-- The mark parse rule `span[data-gradient]` with the attribute rule of `gradient`:
a `span` without a `data-gradient` attribute is not a `gradientText` mark. -/
def parseHTML (element : SpanElement) : Option Attrs :=
  if (element.getAttribute "data-gradient").isSome then
    some { gradient := element.getAttribute "data-gradient" }
  else none

/-- The command `setGradient(gradient)`, over the framework command `setMark`. -/
def setGradient {σ : Type} (setMark : String → Attrs → σ → Bool × σ)
    (gradient : Option String) : σ → Bool × σ :=
  setMark name { gradient := gradient }

end GradientText

/-!
# The mark toggles of the toolbar

`src/components/RichTextEditor.jsx` wires four buttons of the toolbar to the commands
`toggleBold`, `toggleItalic`, `toggleUnderline` and `toggleStrike`.  The commands
themselves are not under `src/`; they are modelled from the specification of the
formatting command layer.
-/

namespace Toolbar

/-- The four boolean marks that the toolbar toggles. -/
inductive BoolMark where
  | bold
  | italic
  | underline
  | strike
  deriving DecidableEq

/-- A text run with its mark set: the four boolean marks, and the parameterised
marks (colour, gradient, link, ...) by name and value. -/
structure TextRun where
  content : String
  bold : Bool
  italic : Bool
  underline : Bool
  strike : Bool
  styles : List (String × String)
  deriving DecidableEq

/-- Whether a run carries a boolean mark. -/
def TextRun.has (r : TextRun) : BoolMark → Bool
  | .bold => r.bold
  | .italic => r.italic
  | .underline => r.underline
  | .strike => r.strike

/-- The run with a boolean mark added (`true`) or removed (`false`). -/
def TextRun.put (r : TextRun) (m : BoolMark) (b : Bool) : TextRun :=
  match m with
  | .bold => { r with bold := b }
  | .italic => { r with italic := b }
  | .underline => { r with underline := b }
  | .strike => { r with strike := b }

/-- A document as its text runs in order, with a selection that covers the runs of
index `selFrom` up to, not including, `selTo`. -/
structure DocState where
  runs : List TextRun
  selFrom : Nat
  selTo : Nat
  deriving DecidableEq

/-- The runs from index `i` on, with `f` applied to each run inside the selection. -/
def mapSel (f : TextRun → TextRun) (selFrom selTo : Nat) : Nat → List TextRun → List TextRun
  | _, [] => []
  | i, r :: rest =>
      (if selFrom ≤ i ∧ i < selTo then f r else r) :: mapSel f selFrom selTo (i + 1) rest

/-- Whether `p` holds of every run inside the selection, from index `i` on. -/
def allSel (p : TextRun → Bool) (selFrom selTo : Nat) : Nat → List TextRun → Bool
  | _, [] => true
  | i, r :: rest =>
      (if selFrom ≤ i ∧ i < selTo then p r else true) && allSel p selFrom selTo (i + 1) rest

/-- Modelled from the spec: the mutation `setMark` of the document model, which is not
under `src/`.  It adds the mark to every run of the selection; a mark set holds a
mark name at most once. -/
def setMark (m : BoolMark) (st : DocState) : DocState :=
  { st with runs := mapSel (fun r => r.put m true) st.selFrom st.selTo 0 st.runs }

/-- Modelled from the spec: the mutation `unsetMark` of the document model, which is
not under `src/`.  It removes the mark from every run of the selection. -/
def unsetMark (m : BoolMark) (st : DocState) : DocState :=
  { st with runs := mapSel (fun r => r.put m false) st.selFrom st.selTo 0 st.runs }

/-- Modelled from the spec: the introspection `isActive` of a toggle command, which is
not under `src/`.  It tells whether the mark already holds across the selection. -/
def isActive (m : BoolMark) (st : DocState) : Bool :=
  allSel (fun r => r.has m) st.selFrom st.selTo 0 st.runs

/-- Modelled from the spec: `execute` of a toggle command, which is not under `src/`.
An active mark is removed from the selection, an inactive one is added to it. -/
def toggleMark (m : BoolMark) (st : DocState) : DocState :=
  if isActive m st then unsetMark m st else setMark m st

/-- The click handler of the Bold button: `toggleBold()`. -/
def toggleBold : DocState → DocState := toggleMark .bold

/-- The click handler of the Italic button: `toggleItalic()`. -/
def toggleItalic : DocState → DocState := toggleMark .italic

/-- The click handler of the Underline button: `toggleUnderline()`. -/
def toggleUnderline : DocState → DocState := toggleMark .underline

/-- The click handler of the Strikethrough button: `toggleStrike()`. -/
def toggleStrike : DocState → DocState := toggleMark .strike

/-- The selection has a uniform state for the mark: every run inside it carries the
mark, or none does. -/
def Uniform (m : BoolMark) (st : DocState) : Prop :=
  allSel (fun r => r.has m) st.selFrom st.selTo 0 st.runs = true ∨
    allSel (fun r => !r.has m) st.selFrom st.selTo 0 st.runs = true

end Toolbar

/-!
# JavaScript values of forms

What the form code reads of JavaScript values: truthiness, `Array.isArray`, and
`String.prototype.trim`.
-/

namespace JS

/-- The characters that `String.prototype.trim` strips: white space and line
terminators of ECMAScript. -/
def isWhiteSpace (c : Char) : Bool :=
  let n := c.toNat
  n == 0x9 || n == 0xA || n == 0xB || n == 0xC || n == 0xD || n == 0x20 || n == 0xA0 ||
    n == 0x1680 || (0x2000 ≤ n && n ≤ 0x200A) || n == 0x2028 || n == 0x2029 ||
    n == 0x202F || n == 0x205F || n == 0x3000 || n == 0xFEFF

/-- The test `s.trim() === ''`. -/
def trimIsEmpty (s : String) : Bool := s.data.all isWhiteSpace

/-- JavaScript truthiness of a value that is `undefined` or a string. -/
def truthy (v : Option String) : Bool :=
  match v with
  | some s => s != ""
  | none => false

/-- An answer of a form: `undefined` or `null`, a boolean, a number, a string, or an
array of strings (a multi-select). -/
inductive Answer where
  | nullish
  | bool (b : Bool)
  | num (n : ℤ)
  | str (s : String)
  | arr (items : List String)
  deriving DecidableEq

/-- JavaScript truthiness of an answer. -/
def Answer.truthy : Answer → Bool
  | .nullish => false
  | .bool b => b
  | .num n => n != 0
  | .str s => s != ""
  | .arr _ => true

/-- The test
`!answer || (Array.isArray(answer) && answer.length === 0) || answer.trim?.() === ''`
used by `mapAnswersToQuestions` and by `validate`. -/
def noAnswer (answer : Answer) : Bool :=
  !answer.truthy ||
    (match answer with
     | .arr items => items.length == 0
     | _ => false) ||
    (match answer with
     | .str s => trimIsEmpty s
     | _ => false)

end JS

/-!
# Answers of an application

`mapAnswersToQuestions` of `src/components/ApplicantCard.jsx`.  The object `answers`
is given by its entries in the order of `Object.entries`.
-/

namespace ApplicantCard

/-- The `id` of a question: a string or a number.  A key of `answers` is always a
string, so `q.id === questionId` holds of a string id only. -/
inductive QuestionId where
  | str (s : String)
  | num (n : ℤ)
  deriving DecidableEq

/-- A question of the form definition. -/
structure Question where
  id : QuestionId
  label : String
  type : String
  deriving DecidableEq

/-- A record `{ questionId, label, answer, type }`. -/
structure Mapped where
  questionId : String
  label : String
  answer : JS.Answer
  type : String
  deriving DecidableEq

/-- The callback of `.map`: `null` or a record. -/
def mapEntry (questions : List Question) (entry : String × JS.Answer) : Option Mapped :=
  match questions.find? (fun q => q.id == .str entry.1) with
  | none => none
  | some question =>
      if JS.noAnswer entry.2 then none
      else
        some
          { questionId := entry.1
            label := question.label
            answer := entry.2
            type := question.type }

/-- The function `mapAnswersToQuestions`; `none` is a missing argument. -/
def mapAnswersToQuestions (answers : Option (List (String × JS.Answer)))
    (questions : Option (List Question)) : List Mapped :=
  match answers, questions with
  | some entries, some qs => (entries.map (mapEntry qs)).filterMap id
  | _, _ => []

/-- An answer is provided: not falsy, not an empty array, not a string of white space
only. -/
def provided (answer : JS.Answer) : Bool :=
  answer.truthy &&
    (match answer with
     | .arr [] => false
     | .str s => !JS.trimIsEmpty s
     | _ => true)

end ApplicantCard

/-!
# Authentication helpers and the protected route

`src/utils/auth.js` and `src/components/ProtectedRoute.jsx`.  The entry `user` of
`localStorage` is written by `login` with `JSON.stringify` and removed by `logout`;
it is modelled by the user it parses to.
-/

namespace Auth

/-- A team id as a JavaScript value; `===` on these values is equality. -/
inductive Id where
  | undefined
  | null
  | num (n : ℤ)
  | str (s : String)
  deriving DecidableEq

/-- A user object: its `rank` (`none` when the property is missing) and `team_id`. -/
structure User where
  rank : Option String
  team_id : Id
  deriving DecidableEq

/-- The function `canAccessTeam`; `none` is a missing user. -/
def canAccessTeam (user : Option User) (teamId : Id) : Bool :=
  match user with
  | none => false
  | some u =>
      if u.rank = some "GUILD_MASTER" ∨ u.rank = some "COUNCIL" then true
      else if u.rank = some "TEAM_LEAD" then u.team_id == teamId
      else false

/-- The two entries of `localStorage` that the helpers read. -/
structure Storage where
  token : Option String
  user : Option User
  deriving DecidableEq

/-- The function `getCurrentUser`. -/
def getCurrentUser (storage : Storage) : Option User := storage.user

/-- The function `getToken`. -/
def getToken (storage : Storage) : Option String := storage.token

/-- The function `isAuthenticated`: `!!getToken()`. -/
def isAuthenticated (storage : Storage) : Bool := JS.truthy (getToken storage)

/-- The property `requiredRank` of `ProtectedRoute`: missing, a string, or an array of
strings. -/
inductive RequiredRank where
  | missing
  | single (rank : String)
  | many (ranks : List String)
  deriving DecidableEq

/-- JavaScript truthiness of `requiredRank`: a missing value and the empty string are
falsy, every array is truthy. -/
def RequiredRank.truthy : RequiredRank → Bool
  | .missing => false
  | .single rank => rank != ""
  | .many _ => true

/-- The constant `allowedRanks`:
`Array.isArray(requiredRank) ? requiredRank : [requiredRank]`. -/
def allowedRanks : RequiredRank → List String
  | .many ranks => ranks
  | .single rank => [rank]
  | .missing => []

/-- The test `allowedRanks.includes(user?.rank)`; a missing user or rank is
`undefined`, which an array of strings does not include. -/
def includesRank (allowed : List String) (user : Option User) : Bool :=
  match user with
  | some u =>
      (match u.rank with
       | some rank => allowed.contains rank
       | none => false)
  | none => false

/-- What `ProtectedRoute` returns. -/
inductive Rendered where
  | navigate (path : String)
  | children
  deriving DecidableEq

/-- The component `ProtectedRoute`. -/
def ProtectedRoute (storage : Storage) (requiredRank : RequiredRank) : Rendered :=
  let user := getCurrentUser storage
  let loggedIn := isAuthenticated storage
  if !loggedIn then .navigate "/login"
  else if requiredRank.truthy then
    if !includesRank (allowedRanks requiredRank) user then .navigate "/dashboard"
    else .children
  else .children

end Auth

/-!
# The transactions slice

The reducer of `processTransaction.fulfilled` in
`src/store/slices/transactionsSlice.js`.
-/

namespace TransactionsSlice

/-- A transaction: its `id` and its other properties by name. -/
structure Transaction where
  id : String
  fields : List (String × String)
  deriving DecidableEq

/-- The state of the slice. -/
structure State where
  items : List Transaction
  loading : Bool
  error : Option String
  deriving DecidableEq

/-- The method `Array.prototype.findIndex`; `none` stands for `-1`. -/
def findIndex {α : Type} (p : α → Bool) : List α → Option Nat
  | [] => none
  | x :: xs => if p x then some 0 else (findIndex p xs).map (· + 1)

/-- The reducer of `processTransaction.fulfilled`. -/
def processTransactionFulfilled (state : State) (payload : Transaction) : State :=
  let existingIndex := findIndex (fun item => item.id == payload.id) state.items
  match existingIndex with
  | none => { state with loading := false, items := state.items ++ [payload] }
  | some i => { state with loading := false, items := state.items.set i payload }

end TransactionsSlice

/-!
# Validation of the application form

`validate` of `src/components/ApplicationForm.jsx`.
-/

namespace ApplicationForm

/-- The state `identity`; a property that was never set is `none`. -/
structure Identity where
  warcraftLogsUrl : Option String
  region : Option String
  realm : Option String
  characterName : Option String
  deriving DecidableEq

/-- A custom question. -/
structure Question where
  id : String
  required : Bool
  deriving DecidableEq

/-- The assignment `newErrors[key] = message` on the object `newErrors`, kept as its
entries. -/
def setError (newErrors : List (String × String)) (key message : String) :
    List (String × String) :=
  if newErrors.any (fun e => e.1 == key) then
    newErrors.map (fun e => if e.1 == key then (key, message) else e)
  else newErrors ++ [(key, message)]

/-- The test `!v || v.trim() === ''` of the identity checks. -/
def missingOrBlank (v : Option String) : Bool :=
  !JS.truthy v ||
    (match v with
     | some s => JS.trimIsEmpty s
     | none => false)

/-- The constant `hasLogsUrl`. -/
def hasLogsUrl (identity : Identity) : Bool :=
  JS.truthy identity.warcraftLogsUrl &&
    (match identity.warcraftLogsUrl with
     | some s => !JS.trimIsEmpty s
     | none => false)

/-- The constant `hasManualInfo`:
`identity.region && identity.realm && identity.characterName`, as a boolean. -/
def hasManualInfo (identity : Identity) : Bool :=
  JS.truthy identity.region && JS.truthy identity.realm && JS.truthy identity.characterName

/-- The errors recorded for the system fields. -/
def identityErrors (identity : Identity) : List (String × String) :=
  if !hasLogsUrl identity && !hasManualInfo identity then
    let e0 : List (String × String) := []
    let e1 :=
      if missingOrBlank identity.warcraftLogsUrl then
        setError e0 "warcraftLogsUrl" "Required if Region/Realm/Character Name not provided"
      else e0
    let e2 :=
      if !JS.truthy identity.region then
        setError e1 "region" "Required if Warcraft Logs URL not provided"
      else e1
    let e3 :=
      if missingOrBlank identity.realm then
        setError e2 "realm" "Required if Warcraft Logs URL not provided"
      else e2
    if missingOrBlank identity.characterName then
      setError e3 "characterName" "Required if Warcraft Logs URL not provided"
    else e3
  else []

/-- The value `answers[question.id]`; a missing property is `undefined`. -/
def answerOf (answers : List (String × JS.Answer)) (id : String) : JS.Answer :=
  (answers.lookup id).getD .nullish

/-- The body of `questions.forEach`. -/
def questionError (answers : List (String × JS.Answer)) (newErrors : List (String × String))
    (question : Question) : List (String × String) :=
  if question.required then
    if JS.noAnswer (answerOf answers question.id) then
      setError newErrors question.id "This field is required"
    else newErrors
  else newErrors

/-- The function `validate`: the object handed to `setErrors` and the value
returned. -/
def validate (identity : Identity) (questions : List Question)
    (answers : List (String × JS.Answer)) : List (String × String) × Bool :=
  let newErrors := questions.foldl (questionError answers) (identityErrors identity)
  (newErrors, newErrors.length == 0)

/-- The keys of the identity fields. -/
def identityKeys : List String := ["warcraftLogsUrl", "region", "realm", "characterName"]

end ApplicationForm

/-!
# Position of the image toolbar

`updateToolbar` of `src/components/ImageToolbar.jsx`, from the two rectangles on.
-/

namespace ImageToolbar

/-- The value of `left` handed to `setPosition`. -/
def toolbarLeft (rect editorRect : ImageResizeHandles.Rect) : ℚ :=
  let toolbarWidth : ℚ := 460
  let left := rect.left - editorRect.left + rect.width / 2 - toolbarWidth / 2
  let editorWidth := editorRect.width
  let padding : ℚ := 10
  let left := if left < padding then padding else left
  if left + toolbarWidth > editorWidth - padding then editorWidth - toolbarWidth - padding
  else left

/-- The value of `top` handed to `setPosition`; `rect.bottom` is
`rect.top + rect.height`. -/
def toolbarTop (rect editorRect : ImageResizeHandles.Rect) : ℚ :=
  let toolbarHeight : ℚ := 120
  let top := rect.top - editorRect.top - toolbarHeight - 8
  let padding : ℚ := 10
  if top < padding then rect.top + rect.height - editorRect.top + 8 else top

end ImageToolbar

/-!
# Users of the command flow map

`getUserRolesMap` and `groupUsersByLevel` of `src/components/CommandFlowMap.jsx`.
User ids are numbers; the object `userMap` is kept as its values in the order of
`Object.values`, which for number keys is the ascending order of the keys.
-/

namespace CommandFlowMap

/-- An element of `role.assigned_users`. -/
structure AssignedUser where
  id : Nat
  username : String
  deriving DecidableEq

/-- A role as loaded from the API; `assigned_users` may be missing. -/
structure Role where
  id : Nat
  name : String
  description : String
  cluster_level : String
  cluster_name : String
  assigned_users : Option (List AssignedUser)
  deriving DecidableEq

/-- The record pushed to `roles` of a user. -/
structure RoleInfo where
  id : Nat
  name : String
  description : String
  cluster_level : String
  cluster_name : String
  deriving DecidableEq

/-- A value of `userMap`. -/
structure UserEntry where
  id : Nat
  username : String
  roles : List RoleInfo
  deriving DecidableEq

/-- The assignment `userMap[key] = entry` for a key that is not in the object. -/
def insertEntry (entry : UserEntry) : List UserEntry → List UserEntry
  | [] => [entry]
  | e :: rest => if entry.id < e.id then entry :: e :: rest else e :: insertEntry entry rest

/-- The body of `role.assigned_users.forEach`. -/
def addRole (role : Role) (userMap : List UserEntry) (user : AssignedUser) :
    List UserEntry :=
  let userMap :=
    if userMap.any (fun e => e.id == user.id) then userMap
    else insertEntry { id := user.id, username := user.username, roles := [] } userMap
  userMap.map fun e =>
    if e.id == user.id then
      { e with
        roles :=
          e.roles ++
            [{ id := role.id
               name := role.name
               description := role.description
               cluster_level := role.cluster_level
               cluster_name := role.cluster_name }] }
    else e

/-- The body of `roles.forEach`. -/
def addRoleUsers (userMap : List UserEntry) (role : Role) : List UserEntry :=
  match role.assigned_users with
  | some users => if users.length > 0 then users.foldl (addRole role) userMap else userMap
  | none => userMap

/-- The function `getUserRolesMap`. -/
def getUserRolesMap (roles : List Role) : List UserEntry :=
  roles.foldl addRoleUsers []

/-- The object `grouped`. -/
structure Grouped where
  topCommand : List UserEntry
  middleManagement : List UserEntry
  recruitingSpecialists : List UserEntry
  teamLeadership : List UserEntry
  deriving DecidableEq

/-- The test `user.roles.some(r => r.cluster_level === level)`. -/
def hasLevel (level : String) (user : UserEntry) : Bool :=
  user.roles.any fun r => r.cluster_level == level

/-- The body of `users.forEach`. -/
def placeUser (grouped : Grouped) (user : UserEntry) : Grouped :=
  if hasLevel "top-command" user then
    { grouped with topCommand := grouped.topCommand ++ [user] }
  else if hasLevel "middle-management" user then
    { grouped with middleManagement := grouped.middleManagement ++ [user] }
  else if hasLevel "recruiting-specialists" user then
    { grouped with recruitingSpecialists := grouped.recruitingSpecialists ++ [user] }
  else if hasLevel "team-leadership" user then
    { grouped with teamLeadership := grouped.teamLeadership ++ [user] }
  else grouped

/-- The function `groupUsersByLevel`. -/
def groupUsersByLevel (roles : List Role) : Grouped :=
  (getUserRolesMap roles).foldl placeUser ⟨[], [], [], []⟩

/-- The users of the four groups, from the highest level down. -/
def Grouped.all (grouped : Grouped) : List UserEntry :=
  grouped.topCommand ++ grouped.middleManagement ++ grouped.recruitingSpecialists ++
    grouped.teamLeadership

end CommandFlowMap

/-!
# Classes and specialisations

`src/data/classSpecs.js`, and the rebuilding of a requirement from a key in
`src/components/RoleRequirements.jsx`.
-/

namespace ClassSpecs

/-- A specialisation with its role category. -/
structure Spec where
  name : String
  category : String
  deriving DecidableEq

/-- An element of `CLASS_SPECS`; `className` is the property `class`. -/
structure ClassData where
  className : String
  icon : String
  color : String
  specs : List Spec
  deriving DecidableEq

/-- The constant `ROLE_CATEGORIES.TANK`. -/
def TANK : String := "Tank"

/-- The constant `ROLE_CATEGORIES.HEALER`. -/
def HEALER : String := "Healer"

/-- The constant `ROLE_CATEGORIES.MELEE_DPS`. -/
def MELEE_DPS : String := "Melee DPS"

/-- The constant `ROLE_CATEGORIES.RANGED_DPS`. -/
def RANGED_DPS : String := "Ranged DPS"

/-- The constant `ROLE_CATEGORIES.SUPPORT_DPS`. -/
def SUPPORT_DPS : String := "Support DPS"

/-- The table `CLASS_SPECS`. -/
def CLASS_SPECS : List ClassData :=
  [ ⟨"Death Knight", "⚔️", "#C41E3A",
      [⟨"Blood", TANK⟩, ⟨"Frost", MELEE_DPS⟩, ⟨"Unholy", MELEE_DPS⟩]⟩,
    ⟨"Demon Hunter", "😈", "#A330C9",
      [⟨"Havoc", MELEE_DPS⟩, ⟨"Vengeance", TANK⟩, ⟨"Devourer", RANGED_DPS⟩]⟩,
    ⟨"Druid", "🐻", "#FF7C0A",
      [⟨"Balance", RANGED_DPS⟩, ⟨"Feral", MELEE_DPS⟩, ⟨"Guardian", TANK⟩,
        ⟨"Restoration", HEALER⟩]⟩,
    ⟨"Evoker", "🐉", "#33937F",
      [⟨"Augmentation", SUPPORT_DPS⟩, ⟨"Devastation", RANGED_DPS⟩,
        ⟨"Preservation", HEALER⟩]⟩,
    ⟨"Hunter", "🏹", "#AAD372",
      [⟨"Beast Mastery", RANGED_DPS⟩, ⟨"Marksmanship", RANGED_DPS⟩,
        ⟨"Survival", MELEE_DPS⟩]⟩,
    ⟨"Mage", "🔮", "#3FC7EB",
      [⟨"Arcane", RANGED_DPS⟩, ⟨"Fire", RANGED_DPS⟩, ⟨"Frost", RANGED_DPS⟩]⟩,
    ⟨"Monk", "🥋", "#00FF98",
      [⟨"Brewmaster", TANK⟩, ⟨"Mistweaver", HEALER⟩, ⟨"Windwalker", MELEE_DPS⟩]⟩,
    ⟨"Paladin", "🛡️", "#F48CBA",
      [⟨"Holy", HEALER⟩, ⟨"Protection", TANK⟩, ⟨"Retribution", MELEE_DPS⟩]⟩,
    ⟨"Priest", "✨", "#FFFFFF",
      [⟨"Discipline", HEALER⟩, ⟨"Holy", HEALER⟩, ⟨"Shadow", RANGED_DPS⟩]⟩,
    ⟨"Rogue", "🗡️", "#FFF468",
      [⟨"Assassination", MELEE_DPS⟩, ⟨"Outlaw", MELEE_DPS⟩, ⟨"Subtlety", MELEE_DPS⟩]⟩,
    ⟨"Shaman", "⚡", "#0070DD",
      [⟨"Elemental", RANGED_DPS⟩, ⟨"Enhancement", MELEE_DPS⟩, ⟨"Restoration", HEALER⟩]⟩,
    ⟨"Warlock", "🔥", "#8788EE",
      [⟨"Affliction", RANGED_DPS⟩, ⟨"Demonology", RANGED_DPS⟩,
        ⟨"Destruction", RANGED_DPS⟩]⟩,
    ⟨"Warrior", "⚒️", "#C69B6D",
      [⟨"Arms", MELEE_DPS⟩, ⟨"Fury", MELEE_DPS⟩, ⟨"Protection", TANK⟩]⟩ ]

/-- The function `createSpecKey`. -/
def createSpecKey (className specName : String) : String :=
  className ++ "-" ++ specName

/-- Splitting a list of characters at each occurrence of `sep`; `cur` holds the
current piece, last character first. -/
def splitChars (sep : Char) : List Char → List Char → List (List Char)
  | [], cur => [cur.reverse]
  | c :: cs, cur =>
      if c = sep then cur.reverse :: splitChars sep cs [] else splitChars sep cs (c :: cur)

/-- The method `String.prototype.split` for a separator of one character. -/
def split (s : String) (sep : Char) : List String :=
  (splitChars sep s.data []).map String.mk

/-- A requirement `{ class, spec, category }` as rebuilt from a key; a piece that the
destructuring does not find is `none`. -/
structure Requirement where
  className : Option String
  spec : Option String
  category : String
  deriving DecidableEq

/-- The callback that rebuilds a requirement from a selected key. -/
def rebuild (key : String) : Requirement :=
  let parts := split key '-'
  let className := parts[0]?
  let specName := parts[1]?
  let classData := CLASS_SPECS.find? fun (c : ClassData) => some c.className == className
  let specData :=
    match classData with
    | some c => c.specs.find? fun (s : Spec) => some s.name == specName
    | none => none
  { className := className
    spec := specName
    category :=
      match specData with
      | some s => if s.category != "" then s.category else ""
      | none => "" }

end ClassSpecs

namespace ImageResizeHandles

/-! ## Arithmetic of a pointer move -/

theorem mathRound_le (q : ℚ) : (mathRound q : ℚ) ≤ q + 1 / 2 := by
  unfold mathRound
  exact Int.floor_le _

theorem lt_mathRound (q : ℚ) : q - 1 / 2 < (mathRound q : ℚ) := by
  unfold mathRound
  have h := Int.lt_floor_add_one (q + 1 / 2)
  linarith

theorem abs_mathRound_sub_le (q : ℚ) : |(mathRound q : ℚ) - q| ≤ 1 / 2 := by
  rw [abs_le]
  constructor
  · linarith [lt_mathRound q]
  · linarith [mathRound_le q]

theorem le_mathRound_of_le (n : ℤ) (q : ℚ) (h : (n : ℚ) ≤ q) : n ≤ mathRound q := by
  unfold mathRound
  rw [Int.le_floor]
  linarith

theorem newSize_fst (h : Option Handle) (start : DragStart) (e : MouseEvent) :
    (newSize h start e).1 = max (unclampedWidth h start e) 50 := by
  unfold newSize
  by_cases hlt : unclampedWidth h start e < 50
  · simp [hlt, max_eq_right (le_of_lt hlt)]
  · simp [hlt, max_eq_left (not_lt.mp hlt)]

theorem minSize_le_newSize (h : Option Handle) (start : DragStart) (e : MouseEvent) :
    (50 : ℚ) ≤ (newSize h start e).1 := by
  rw [newSize_fst]
  exact le_max_right _ _

/-- C1: for every handle, every drag-start record and every pointer-move event, the
width that `handleMouseMove` stores as `finalWidth`, and that the animation frame
then writes to the image and publishes, is at least 50. -/
theorem finalWidth_ge_minSize (e : MouseEvent) (start : DragStart) (c : Session)
    (s : State) :
    ∃ w : ℤ, 50 ≤ w ∧ (handleMouseMove e start c).finalWidth = some w ∧
      (animationFrame s (handleMouseMove e start c)).imagePosition.width = w ∧
      (animationFrame s (handleMouseMove e start c)).imgStyleWidth =
        (if c.imgElement then some (px w) else s.imgStyleWidth) := by
  refine ⟨(roundedSize c.activeHandle start e).1, ?_, rfl, rfl, rfl⟩
  exact le_mathRound_of_le 50 _ (by exact_mod_cast minSize_le_newSize _ _ _)

/-- C2: with `deltaX = e.clientX - start.x`, the width before clamping is
`start.width - deltaX` for the west handles `nw`, `sw` and `start.width + deltaX` for
the east handles `ne`, `se`; dragging `nw` by -40 on a 100 x 100 image gives width
140 and height 140. -/
theorem unclampedWidth_west_east (start : DragStart) (e : MouseEvent) (x y y' : ℚ)
    (c : Session) :
    unclampedWidth (some .nw) start e = start.width - (e.clientX - start.x) ∧
    unclampedWidth (some .sw) start e = start.width - (e.clientX - start.x) ∧
    unclampedWidth (some .ne) start e = start.width + (e.clientX - start.x) ∧
    unclampedWidth (some .se) start e = start.width + (e.clientX - start.x) ∧
    (handleMouseMove e start c).finalWidth =
      some (mathRound (max (unclampedWidth c.activeHandle start e) 50)) ∧
    roundedSize (some .nw) ⟨x, y, 100, .fin 100⟩ ⟨x - 40, y'⟩ = (140, .fin 140) := by
  refine ⟨rfl, rfl, rfl, rfl, ?_, ?_⟩
  · simp [handleMouseMove, roundedSize, newSize_fst]
  · simp [roundedSize, newSize, unclampedWidth, JSNum.div, JSNum.round, mathRound]
    norm_num


theorem newSize_of_pos (h : Option Handle) (x y sw sh : ℚ) (e : MouseEvent)
    (hw : 0 < sw) (hh : 0 < sh) :
    newSize h ⟨x, y, sw, .fin sh⟩ e =
      ((newSize h ⟨x, y, sw, .fin sh⟩ e).1,
        .fin ((newSize h ⟨x, y, sw, .fin sh⟩ e).1 / (sw / sh))) := by
  have hsh : sh ≠ 0 := ne_of_gt hh
  have hsw : sw ≠ 0 := ne_of_gt hw
  unfold newSize
  by_cases hlt : unclampedWidth h ⟨x, y, sw, .fin sh⟩ e < 50
  · simp [hlt, JSNum.div, hsh, hsw]
  · simp [hlt, JSNum.div, hsh, hsw]

theorem rounded_pair_bound (w a : ℚ) (ha : 0 < a) :
    |(mathRound w : ℚ) - a * (mathRound (w / a) : ℚ)| ≤ (1 + a) / 2 := by
  have hmulw : a * (w / a) = w := by field_simp
  have h1 := abs_mathRound_sub_le w
  have h2 := abs_mathRound_sub_le (w / a)
  generalize (mathRound w : ℚ) = r1 at h1 ⊢
  generalize (mathRound (w / a) : ℚ) = r2 at h2 ⊢
  generalize w / a = q at hmulw h2
  have e1 : r1 - a * r2 = (r1 - w) - a * (r2 - q) := by
    rw [← hmulw]; ring
  rw [e1]
  rw [abs_le] at h1 h2 ⊢
  constructor <;> nlinarith [h1.1, h1.2, h2.1, h2.2]

theorem rounded_ratio_bound (r1 r2 a : ℚ) (hr2 : 0 < r2)
    (hmul : |r1 - a * r2| ≤ (1 + a) / 2) :
    |r1 / r2 - a| ≤ (1 + a) / (2 * r2) := by
  have e2 : r1 / r2 - a = (r1 - a * r2) / r2 := by
    field_simp
    ring
  rw [e2, abs_div, abs_of_pos hr2, div_le_div_iff₀ hr2 (by positivity)]
  calc |r1 - a * r2| * (2 * r2) ≤ (1 + a) / 2 * (2 * r2) :=
        mul_le_mul_of_nonneg_right hmul (by positivity)
    _ = (1 + a) * r2 := by ring

/-- C3, as stated, fails: on a 300 x 100 image, moving the `se` handle by one pixel
publishes 301 x 100, and `301 / 100` differs from `300 / 100` by a hundredth. -/
theorem aspect_tolerance_fails :
    roundedSize (some .se) ⟨0, 0, 300, .fin 100⟩ ⟨1, 0⟩ = (301, .fin 100) ∧
    ¬ (|((301 : ℤ) : ℚ) / ((100 : ℤ) : ℚ) - (300 : ℚ) / 100| < 1 / 1000) := by
  constructor
  · simp [roundedSize, newSize, unclampedWidth, JSNum.div, JSNum.round, mathRound]
    norm_num
  · norm_num [abs_lt]

/-- C3, amended: from an image of positive width and height, at every pointer-move
the clamped width `w` and height `w / (startWidth / startHeight)` before rounding
have exactly the starting aspect ratio; the published pair is each of them rounded to
the nearest integer, so the published width differs from the ratio times the
published height by at most `(1 + ratio) / 2`, which bounds
`abs (width / height - ratio)` by `(1 + ratio) / (2 * height)` for a positive
published height. -/
theorem aspect_preserved_up_to_rounding (h : Option Handle) (x y sw sh : ℚ)
    (e : MouseEvent) (hw : 0 < sw) (hh : 0 < sh) :
    ∃ (w : ℚ) (rw rh : ℤ),
      newSize h ⟨x, y, sw, .fin sh⟩ e = (w, .fin (w / (sw / sh))) ∧
      w / (w / (sw / sh)) = sw / sh ∧
      roundedSize h ⟨x, y, sw, .fin sh⟩ e = (rw, .fin rh) ∧
      |(rw : ℚ) - w| ≤ 1 / 2 ∧ |(rh : ℚ) - w / (sw / sh)| ≤ 1 / 2 ∧
      |(rw : ℚ) - sw / sh * rh| ≤ (1 + sw / sh) / 2 ∧
      (0 < rh → |(rw : ℚ) / rh - sw / sh| ≤ (1 + sw / sh) / (2 * rh)) := by
  have hsize := newSize_of_pos h x y sw sh e hw hh
  have ha : 0 < sw / sh := div_pos hw hh
  have hwpos : (0 : ℚ) < (newSize h ⟨x, y, sw, .fin sh⟩ e).1 :=
    lt_of_lt_of_le (by norm_num) (minSize_le_newSize h _ e)
  generalize (newSize h ⟨x, y, sw, .fin sh⟩ e).1 = w at hsize hwpos
  have hmul := rounded_pair_bound w (sw / sh) ha
  refine ⟨w, mathRound w, mathRound (w / (sw / sh)), hsize, ?_,
    ?_, abs_mathRound_sub_le w, abs_mathRound_sub_le _, hmul, ?_⟩
  · have hwne : w ≠ 0 := ne_of_gt hwpos
    have hsw : sw ≠ 0 := ne_of_gt hw
    have hsh : sh ≠ 0 := ne_of_gt hh
    field_simp
    ring
  · unfold roundedSize
    rw [hsize]
    rfl
  · intro hrh
    exact rounded_ratio_bound _ _ _ (by exact_mod_cast hrh) hmul

/-- A drag on a 300 x 100 image, one pixel to the right on `se`. -/
theorem aspect_preserved_up_to_rounding_witness :
    (0 : ℚ) < 300 ∧ (0 : ℚ) < 100 ∧
    ∃ (w : ℚ) (rw rh : ℤ),
      newSize (some .se) ⟨0, 0, 300, .fin 100⟩ ⟨1, 0⟩ = (w, .fin (w / (300 / 100))) ∧
      w / (w / (300 / 100)) = 300 / 100 ∧
      roundedSize (some .se) ⟨0, 0, 300, .fin 100⟩ ⟨1, 0⟩ = (rw, .fin rh) ∧
      |(rw : ℚ) - w| ≤ 1 / 2 ∧ |(rh : ℚ) - w / (300 / 100)| ≤ 1 / 2 ∧
      |(rw : ℚ) - 300 / 100 * rh| ≤ (1 + 300 / 100) / 2 ∧
      (0 < rh → |(rw : ℚ) / rh - 300 / 100| ≤ (1 + 300 / 100) / (2 * rh)) :=
  ⟨by norm_num, by norm_num,
    aspect_preserved_up_to_rounding (some .se) 0 0 300 100 ⟨1, 0⟩ (by norm_num)
      (by norm_num)⟩


/-! ## The drag as a trace -/

theorem updateHandles_frame (ed : Editor) (s : State) :
    (updateHandles ed s).session = s.session ∧
    (updateHandles ed s).setImageWidthCalls = s.setImageWidthCalls ∧
    (updateHandles ed s).isDragging = s.isDragging ∧
    (updateHandles ed s).activeHandle = s.activeHandle ∧
    (updateHandles ed s).dragStartRef = s.dragStartRef ∧
    (updateHandles ed s).body = s.body ∧
    (updateHandles ed s).isDestroyed = s.isDestroyed ∧
    (updateHandles ed s).imgStyleWidth = s.imgStyleWidth := by
  unfold updateHandles
  split
  · simp
  · split
    · simp
    · simp
    · split
      · simp
      · split
        · split <;> simp
        · simp

theorem step_duringDrag (s : State) (c : Session) (ev : Event)
    (hev : ev.duringDrag = true) (hs : s.session = some c) :
    ∃ c', (step s ev).session = some c' ∧ c'.imgElement = c.imgElement ∧
      c'.activeHandle = c.activeHandle ∧
      c'.finalWidth =
        (match lastMove [ev] with
         | some e => some (roundedSize c.activeHandle s.dragStartRef e).1
         | none => c.finalWidth) ∧
      (step s ev).setImageWidthCalls = s.setImageWidthCalls ∧
      (step s ev).isDragging = s.isDragging ∧
      (step s ev).activeHandle = s.activeHandle ∧
      (step s ev).dragStartRef = s.dragStartRef ∧
      (step s ev).body = s.body ∧
      (step s ev).isDestroyed = s.isDestroyed := by
  cases ev with
  | editorUpdate ed =>
      obtain ⟨h1, h2, h3, h4, h5, h6, h7, _⟩ := updateHandles_frame ed s
      refine ⟨c, ?_, rfl, rfl, rfl, ?_, ?_, ?_, ?_, ?_, ?_⟩ <;>
        (simp only [step]; split <;> simp_all)
  | mouseMove e =>
      refine ⟨handleMouseMove e s.dragStartRef c, ?_, rfl, rfl, rfl, ?_, ?_, ?_, ?_, ?_, ?_⟩ <;>
        simp [step, hs]
  | frame =>
      cases hraf : c.rafId with
      | none =>
          refine ⟨c, ?_, rfl, rfl, rfl, ?_, ?_, ?_, ?_, ?_, ?_⟩ <;>
            simp [step, hs, animationFrame, hraf]
      | some r =>
          refine ⟨{ c with rafId := none }, ?_, rfl, rfl, rfl, ?_, ?_, ?_, ?_, ?_, ?_⟩ <;>
            simp [step, hs, animationFrame, hraf]
  | mouseDown _ _ _ _ => simp [Event.duringDrag] at hev
  | mouseUp _ => simp [Event.duringDrag] at hev
  | unmount => simp [Event.duringDrag] at hev

theorem run_duringDrag (evs : List Event) :
    ∀ (s : State) (c : Session), (∀ ev ∈ evs, ev.duringDrag = true) →
      s.session = some c →
      ∃ c', (run s evs).session = some c' ∧ c'.imgElement = c.imgElement ∧
        c'.activeHandle = c.activeHandle ∧
        c'.finalWidth =
          (match lastMove evs with
           | some e => some (roundedSize c.activeHandle s.dragStartRef e).1
           | none => c.finalWidth) ∧
        (run s evs).setImageWidthCalls = s.setImageWidthCalls ∧
        (run s evs).isDragging = s.isDragging ∧
        (run s evs).activeHandle = s.activeHandle ∧
        (run s evs).dragStartRef = s.dragStartRef ∧
        (run s evs).body = s.body ∧
        (run s evs).isDestroyed = s.isDestroyed := by
  induction evs with
  | nil =>
      intro s c _ hs
      exact ⟨c, hs, rfl, rfl, rfl, rfl, rfl, rfl, rfl, rfl, rfl⟩
  | cons ev evs ih =>
      intro s c hall hs
      obtain ⟨c1, g1, g2, g3, g4, g5, g6, g7, g8, g9, g10⟩ :=
        step_duringDrag s c ev (hall ev (List.mem_cons_self _ _)) hs
      obtain ⟨c2, k1, k2, k3, k4, k5, k6, k7, k8, k9, k10⟩ :=
        ih (step s ev) c1 (fun ev' h' => hall ev' (List.mem_cons_of_mem _ h')) g1
      refine ⟨c2, k1, k2.trans g2, k3.trans g3, ?_, k5.trans g5, k6.trans g6,
        k7.trans g7, k8.trans g8, k9.trans g9, k10.trans g10⟩
      rw [k4, g3, g8, g4]
      simp only [lastMove]
      cases lastMove evs with
      | some e => rfl
      | none => rfl


theorem dragEffect_of_setupPasses (ed : Editor) (s : State) (hd : s.isDragging = true)
    (hed : ed.setupPasses = true) :
    dragEffect ed s =
      { s with session := some ⟨none, ed.resolvesImage, none, s.activeHandle⟩ } := by
  obtain ⟨hasView, isDestroyed, dom, nodeAt, nodeDOM, editorRect⟩ := ed
  simp only [Editor.setupPasses, Editor.usable, Bool.and_eq_true, Bool.not_eq_true'] at hed
  obtain ⟨⟨⟨hdes, hview⟩, hdom⟩, hnode⟩ := hed
  subst hdes hview
  cases dom with
  | raises => simp at hdom
  | value b =>
    simp only at hdom
    subst hdom
    cases nodeAt with
    | raises => simp at hnode
    | value node =>
      by_cases himg : isImage node = true
      · cases nodeDOM with
        | raises => simp [himg] at hnode
        | value d =>
          cases d <;> simp [dragEffect, hd, himg, Editor.resolvesImage]
      · cases nodeDOM with
        | raises => simp [dragEffect, hd, himg, Editor.resolvesImage]
        | value d => cases d <;> simp [dragEffect, hd, himg, Editor.resolvesImage]

theorem dragEffect_of_not_setupPasses (ed : Editor) (s : State)
    (hd : s.isDragging = true) (hed : ed.setupPasses = false) :
    dragEffect ed s = { s with isDragging := false } := by
  obtain ⟨hasView, isDestroyed, dom, nodeAt, nodeDOM, editorRect⟩ := ed
  cases hasView <;> cases isDestroyed <;> cases dom with
  | raises => simp [dragEffect, hd]
  | value b =>
    cases b <;> cases nodeAt with
    | raises => simp [dragEffect, hd]
    | value node =>
      by_cases himg : isImage node = true
      · cases nodeDOM with
        | raises => simp [dragEffect, hd, himg]
        | value d =>
          first
            | (simp [dragEffect, hd, himg]; done)
            | (simp [Editor.setupPasses, Editor.usable, himg] at hed)
      · first
          | (simp [dragEffect, hd, himg]; done)
          | (simp [Editor.setupPasses, Editor.usable, himg] at hed)

theorem step_mouseDown_idle (s : State) (handle : Handle) (e : MouseEvent)
    (targetCursor : String) (ed : Editor) (hshow : s.showHandles = true)
    (hmounted : s.isDestroyed = false) (hidle : s.isDragging = false) :
    step s (.mouseDown handle e targetCursor ed) =
      dragEffect ed { handleMouseDown handle e targetCursor s with session := none } := by
  simp [step, hshow, hmounted, rerunDragEffect, handleMouseDown, hidle]

theorem step_mouseUp_dragging (s : State) (c : Session) (ed : Editor)
    (hs : s.session = some c) (hd : s.isDragging = true) :
    step s (.mouseUp ed) = { handleMouseUp ed s c with session := none } := by
  simp [step, hs, rerunDragEffect, handleMouseUp, hd, dragEffect]


theorem px_300 : px 300 = "300px" := by decide

theorem selectedState_eq :
    selectedState =
      { State.init with showHandles := true, imagePosition := ⟨10, 20, 200, .fin 100⟩ } := by
  simp [selectedState, step, State.init, updateHandles, imageEditor, isImage]
  norm_num

/-! ## The claims on drag sessions -/

/-- C4: from an idle state whose published box is 200 x 100, pressing the `se`
handle, moving the pointer 100 pixels to the right, letting the animation frame run
and releasing publishes width 300 and height 150 and issues exactly one
`setImageWidth` call, with argument `300px`; the same single call is issued when the
release comes before the animation frame. -/
theorem se_drag_commits_300px (s : State) (x y y' : ℚ) (targetCursor : String)
    (ed ed' : Editor) (hshow : s.showHandles = true) (hmounted : s.isDestroyed = false)
    (hidle : s.isDragging = false) (hw : s.imagePosition.width = 200)
    (hh : s.imagePosition.height = .fin 100) (hed : ed.setupPasses = true)
    (himg : ed.resolvesImage = true) (hed' : ed'.usable = true) :
    (run s [.mouseDown .se ⟨x, y⟩ targetCursor ed, .mouseMove ⟨x + 100, y'⟩, .frame,
        .mouseUp ed']).imagePosition.width = 300 ∧
    (run s [.mouseDown .se ⟨x, y⟩ targetCursor ed, .mouseMove ⟨x + 100, y'⟩, .frame,
        .mouseUp ed']).imagePosition.height = .fin 150 ∧
    (run s [.mouseDown .se ⟨x, y⟩ targetCursor ed, .mouseMove ⟨x + 100, y'⟩, .frame,
        .mouseUp ed']).setImageWidthCalls = s.setImageWidthCalls ++ ["300px"] ∧
    (run s [.mouseDown .se ⟨x, y⟩ targetCursor ed, .mouseMove ⟨x + 100, y'⟩,
        .mouseUp ed']).setImageWidthCalls = s.setImageWidthCalls ++ ["300px"] := by
  have hsize : roundedSize (some .se) ⟨x, y, 200, .fin 100⟩ ⟨x + 100, y'⟩
      = (300, .fin 150) := by
    simp [roundedSize, newSize, unclampedWidth, JSNum.div, JSNum.round, mathRound]
    norm_num
  have hdown := step_mouseDown_idle s .se ⟨x, y⟩ targetCursor ed hshow hmounted hidle
  rw [dragEffect_of_setupPasses ed _ rfl hed] at hdown
  simp only [run, List.foldl, hdown]
  simp [step, handleMouseMove, animationFrame, handleMouseUp, rerunDragEffect, dragEffect,
    handleMouseDown, hw, hh, hsize, himg, hed', px_300]


theorem selectedState_props :
    selectedState.showHandles = true ∧ selectedState.isDestroyed = false ∧
    selectedState.isDragging = false ∧ selectedState.imagePosition.width = 200 ∧
    selectedState.imagePosition.height = .fin 100 ∧
    selectedState.setImageWidthCalls = [] := by
  rw [selectedState_eq]
  simp [State.init]

theorem imageEditor_props :
    imageEditor.setupPasses = true ∧ imageEditor.resolvesImage = true ∧
    imageEditor.usable = true := by
  simp [imageEditor, Editor.setupPasses, Editor.resolvesImage, Editor.usable, isImage]

/-- The scenario of C4 on `selectedState`, pointer pressed at (5, 7). -/
theorem se_drag_commits_300px_witness :
    (run selectedState [.mouseDown .se ⟨5, 7⟩ "se-resize" imageEditor,
        .mouseMove ⟨5 + 100, 7⟩, .frame, .mouseUp imageEditor]).imagePosition.width = 300 ∧
    (run selectedState [.mouseDown .se ⟨5, 7⟩ "se-resize" imageEditor,
        .mouseMove ⟨5 + 100, 7⟩, .frame, .mouseUp imageEditor]).imagePosition.height
      = .fin 150 ∧
    (run selectedState [.mouseDown .se ⟨5, 7⟩ "se-resize" imageEditor,
        .mouseMove ⟨5 + 100, 7⟩, .frame, .mouseUp imageEditor]).setImageWidthCalls
      = selectedState.setImageWidthCalls ++ ["300px"] ∧
    (run selectedState [.mouseDown .se ⟨5, 7⟩ "se-resize" imageEditor,
        .mouseMove ⟨5 + 100, 7⟩, .mouseUp imageEditor]).setImageWidthCalls
      = selectedState.setImageWidthCalls ++ ["300px"] :=
  se_drag_commits_300px selectedState 5 7 7 "se-resize" imageEditor imageEditor
    selectedState_props.1 selectedState_props.2.1 selectedState_props.2.2.1
    selectedState_props.2.2.2.1 selectedState_props.2.2.2.2.1
    imageEditor_props.1 imageEditor_props.2.1 imageEditor_props.2.2

theorem run_append (s : State) (xs ys : List Event) :
    run s (xs ++ ys) = run (run s xs) ys := by
  simp [run, List.foldl_append]

theorem run_cons (s : State) (ev : Event) (evs : List Event) :
    run s (ev :: evs) = run (step s ev) evs := rfl

theorem step_mouseDown_setup (s : State) (handle : Handle) (e : MouseEvent)
    (targetCursor : String) (ed : Editor) (hshow : s.showHandles = true)
    (hmounted : s.isDestroyed = false) (hidle : s.isDragging = false)
    (hed : ed.setupPasses = true) :
    step s (.mouseDown handle e targetCursor ed) =
      { s with
        isDragging := true
        activeHandle := some handle
        body := ⟨"none", "none", if targetCursor = "" then "nwse-resize" else targetCursor⟩
        dragStartRef :=
          ⟨e.clientX, e.clientY, s.imagePosition.width, s.imagePosition.height⟩
        session := some ⟨none, ed.resolvesImage, none, some handle⟩ } := by
  rw [step_mouseDown_idle s handle e targetCursor ed hshow hmounted hidle,
    dragEffect_of_setupPasses ed _ rfl hed]
  simp [handleMouseDown]

/-- The state reached by a pointer-down on an idle component followed by events of
the drag. -/
theorem run_drag (s : State) (handle : Handle) (e : MouseEvent) (targetCursor : String)
    (ed : Editor) (evs : List Event) (hshow : s.showHandles = true)
    (hmounted : s.isDestroyed = false) (hidle : s.isDragging = false)
    (hed : ed.setupPasses = true) (hevs : ∀ ev ∈ evs, ev.duringDrag = true) :
    ∃ c, (run s (.mouseDown handle e targetCursor ed :: evs)).session = some c ∧
      c.imgElement = ed.resolvesImage ∧
      c.finalWidth =
        (match lastMove evs with
         | some eLast =>
             some (roundedSize (some handle)
               ⟨e.clientX, e.clientY, s.imagePosition.width, s.imagePosition.height⟩
               eLast).1
         | none => none) ∧
      (run s (.mouseDown handle e targetCursor ed :: evs)).setImageWidthCalls
        = s.setImageWidthCalls ∧
      (run s (.mouseDown handle e targetCursor ed :: evs)).isDragging = true := by
  have hdown := step_mouseDown_setup s handle e targetCursor ed hshow hmounted hidle hed
  obtain ⟨c, k1, k2, k3, k4, k5, k6, _, k8, _, _⟩ :=
    run_duringDrag evs (step s (.mouseDown handle e targetCursor ed))
      ⟨none, ed.resolvesImage, none, some handle⟩ hevs (by rw [hdown])
  refine ⟨c, k1, k2, ?_, ?_, ?_⟩
  · rw [k4, hdown]
  · rw [run_cons, k5, hdown]
  · rw [run_cons, k6, hdown]


theorem run_snoc (s : State) (evs : List Event) (ev : Event) :
    run s (evs ++ [ev]) = step (run s evs) ev := by
  rw [run_append]
  rfl

theorem roundedSize_fst_ne_zero (h : Option Handle) (start : DragStart) (e : MouseEvent) :
    ((roundedSize h start e).1 != 0) = true := by
  have h50 : (50 : ℤ) ≤ (roundedSize h start e).1 :=
    le_mathRound_of_le 50 _ (by exact_mod_cast minSize_le_newSize _ _ _)
  simp only [bne_iff_ne, ne_eq]
  omega

/-- C5: a completed drag on a live editor with the image element resolved, that is
a pointer-down on an idle component, then any events of the drag among which at least
one pointer-move, then a pointer-up, issues no `setImageWidth` before the pointer-up
and exactly one at the pointer-up, however many pointer-moves there were. -/
theorem one_commit_per_drag (s : State) (handle : Handle) (e : MouseEvent)
    (targetCursor : String) (ed ed' : Editor) (moves : List Event) (eLast : MouseEvent)
    (hshow : s.showHandles = true) (hmounted : s.isDestroyed = false)
    (hidle : s.isDragging = false) (hed : ed.setupPasses = true)
    (himg : ed.resolvesImage = true) (hed' : ed'.usable = true)
    (hmoves : ∀ ev ∈ moves, ev.duringDrag = true) (hlast : lastMove moves = some eLast) :
    (∀ pre post, moves = pre ++ post →
      (run s (.mouseDown handle e targetCursor ed :: pre)).setImageWidthCalls
        = s.setImageWidthCalls) ∧
    (run s (.mouseDown handle e targetCursor ed :: moves ++ [.mouseUp ed'])).setImageWidthCalls
      = s.setImageWidthCalls ++
          [px (roundedSize (some handle)
            ⟨e.clientX, e.clientY, s.imagePosition.width, s.imagePosition.height⟩
            eLast).1] := by
  constructor
  · intro pre post hsplit
    obtain ⟨_, _, _, _, hcalls, _⟩ :=
      run_drag s handle e targetCursor ed pre hshow hmounted hidle hed
        (fun ev hev => hmoves ev (by rw [hsplit]; exact List.mem_append_left _ hev))
    exact hcalls
  · obtain ⟨c, hc, hi, hf, hcalls, hdrag⟩ :=
      run_drag s handle e targetCursor ed moves hshow hmounted hidle hed hmoves
    rw [hlast] at hf
    rw [run_snoc, step_mouseUp_dragging _ c ed' hc hdrag]
    simp [handleMouseUp, hf, hi, himg, hed', hcalls, roundedSize_fst_ne_zero]

/-- A drag of `se` on `selectedState` with three pointer-moves and a frame. -/
theorem one_commit_per_drag_witness :
    (∀ pre post,
      [Event.mouseMove ⟨10, 0⟩, .mouseMove ⟨60, 3⟩, .frame, .mouseMove ⟨100, 5⟩]
        = pre ++ post →
      (run selectedState
        (.mouseDown .se ⟨0, 0⟩ "" imageEditor :: pre)).setImageWidthCalls
        = selectedState.setImageWidthCalls) ∧
    (run selectedState
      (.mouseDown .se ⟨0, 0⟩ "" imageEditor ::
        [Event.mouseMove ⟨10, 0⟩, .mouseMove ⟨60, 3⟩, .frame, .mouseMove ⟨100, 5⟩]
        ++ [.mouseUp imageEditor])).setImageWidthCalls
      = selectedState.setImageWidthCalls ++
          [px (roundedSize (some .se)
            ⟨0, 0, selectedState.imagePosition.width, selectedState.imagePosition.height⟩
            ⟨100, 5⟩).1] :=
  one_commit_per_drag selectedState .se ⟨0, 0⟩ "" imageEditor imageEditor
    [.mouseMove ⟨10, 0⟩, .mouseMove ⟨60, 3⟩, .frame, .mouseMove ⟨100, 5⟩] ⟨100, 5⟩
    selectedState_props.1 selectedState_props.2.1 selectedState_props.2.2.1
    imageEditor_props.1 imageEditor_props.2.1 imageEditor_props.2.2
    (by simp [Event.duringDrag]) (by simp [lastMove])

/-- C6: when the pointer-up of a drag arrives with no pointer-move since the
pointer-down, no `setImageWidth` is issued and the component ends idle:
`isDragging` false, `activeHandle` null, body styles restored, listeners removed. -/
theorem no_move_no_commit (s : State) (handle : Handle) (e : MouseEvent)
    (targetCursor : String) (ed ed' : Editor) (evs : List Event)
    (hshow : s.showHandles = true) (hmounted : s.isDestroyed = false)
    (hidle : s.isDragging = false) (hed : ed.setupPasses = true)
    (hevs : ∀ ev ∈ evs, ev.duringDrag = true) (hnone : lastMove evs = none) :
    (run s (.mouseDown handle e targetCursor ed :: evs ++ [.mouseUp ed'])).setImageWidthCalls
      = s.setImageWidthCalls ∧
    (run s (.mouseDown handle e targetCursor ed :: evs ++ [.mouseUp ed'])).isDragging
      = false ∧
    (run s (.mouseDown handle e targetCursor ed :: evs ++ [.mouseUp ed'])).activeHandle
      = none ∧
    (run s (.mouseDown handle e targetCursor ed :: evs ++ [.mouseUp ed'])).session
      = none ∧
    (run s (.mouseDown handle e targetCursor ed :: evs ++ [.mouseUp ed'])).body
      = ⟨"", "", ""⟩ := by
  obtain ⟨c, hc, _, hf, hcalls, hdrag⟩ :=
    run_drag s handle e targetCursor ed evs hshow hmounted hidle hed hevs
  rw [hnone] at hf
  rw [run_snoc, step_mouseUp_dragging _ c ed' hc hdrag]
  simp [handleMouseUp, hf, hcalls]

/-- A press and release of `nw` on `selectedState` with nothing in between. -/
theorem no_move_no_commit_witness :
    (run selectedState
      (.mouseDown .nw ⟨3, 4⟩ "nw-resize" imageEditor :: [] ++
        [.mouseUp imageEditor])).setImageWidthCalls = selectedState.setImageWidthCalls ∧
    (run selectedState
      (.mouseDown .nw ⟨3, 4⟩ "nw-resize" imageEditor :: [] ++
        [.mouseUp imageEditor])).isDragging = false ∧
    (run selectedState
      (.mouseDown .nw ⟨3, 4⟩ "nw-resize" imageEditor :: [] ++
        [.mouseUp imageEditor])).activeHandle = none ∧
    (run selectedState
      (.mouseDown .nw ⟨3, 4⟩ "nw-resize" imageEditor :: [] ++
        [.mouseUp imageEditor])).session = none ∧
    (run selectedState
      (.mouseDown .nw ⟨3, 4⟩ "nw-resize" imageEditor :: [] ++
        [.mouseUp imageEditor])).body = ⟨"", "", ""⟩ :=
  no_move_no_commit selectedState .nw ⟨3, 4⟩ "nw-resize" imageEditor imageEditor []
    selectedState_props.1 selectedState_props.2.1 selectedState_props.2.2.1
    imageEditor_props.1 (by simp) rfl


theorem run_drag_mounted (s : State) (handle : Handle) (e : MouseEvent)
    (targetCursor : String) (ed : Editor) (evs : List Event)
    (hshow : s.showHandles = true) (hmounted : s.isDestroyed = false)
    (hidle : s.isDragging = false) (hed : ed.setupPasses = true)
    (hevs : ∀ ev ∈ evs, ev.duringDrag = true) :
    (run s (.mouseDown handle e targetCursor ed :: evs)).isDestroyed = false := by
  have hdown := step_mouseDown_setup s handle e targetCursor ed hshow hmounted hidle hed
  obtain ⟨c, _, _, _, _, _, _, _, _, _, k10⟩ :=
    run_duringDrag evs (step s (.mouseDown handle e targetCursor ed))
      ⟨none, ed.resolvesImage, none, some handle⟩ hevs (by rw [hdown])
  rw [run_cons, k10, hdown]
  exact hmounted

theorem updateHandles_not_image (ed : Editor) (s : State) (node : Option String)
    (hnode : ed.nodeAt = .value node) (hnot : isImage node = false) :
    (updateHandles ed s).showHandles = false := by
  unfold updateHandles
  split
  · rfl
  · split
    · rfl
    · rfl
    · simp [hnode, hnot]

/-- C7, as stated, fails: the selection moves away from the image in the middle of
a drag of `se`, to text or to a second image; nothing has been issued at that point,
and the pointer-up that follows still issues `setImageWidth` with `300px`.  In the
second trace the box published at that moment is the one of the second image. -/
theorem commit_after_selection_loss :
    (run selectedState [.mouseDown .se ⟨0, 0⟩ "" imageEditor, .mouseMove ⟨100, 0⟩,
        .editorUpdate textEditor]).showHandles = false ∧
    (run selectedState [.mouseDown .se ⟨0, 0⟩ "" imageEditor, .mouseMove ⟨100, 0⟩,
        .editorUpdate textEditor]).setImageWidthCalls = [] ∧
    (run selectedState [.mouseDown .se ⟨0, 0⟩ "" imageEditor, .mouseMove ⟨100, 0⟩,
        .editorUpdate textEditor, .mouseUp textEditor]).setImageWidthCalls
      = ["300px"] ∧
    (run selectedState [.mouseDown .se ⟨0, 0⟩ "" imageEditor, .mouseMove ⟨100, 0⟩,
        .editorUpdate otherImageEditor]).imagePosition = ⟨180, 20, 64, .fin 64⟩ ∧
    (run selectedState [.mouseDown .se ⟨0, 0⟩ "" imageEditor, .mouseMove ⟨100, 0⟩,
        .editorUpdate otherImageEditor, .mouseUp otherImageEditor]).setImageWidthCalls
      = ["300px"] := by
  decide!

/-- C7, amended: a selection change during a drag does not cancel the session.  When
the selection moved to a node that is not an image the handles are hidden; nothing is
issued before the pointer-up; and at the pointer-up on a usable editor one
`setImageWidth` with the last computed width is issued when the image element was
resolved at the set-up of the drag effect and a pointer-move occurred, and none
otherwise. -/
theorem selection_loss_does_not_cancel (s : State) (handle : Handle) (e : MouseEvent)
    (targetCursor : String) (ed edAway ed' : Editor) (pre post : List Event)
    (hshow : s.showHandles = true) (hmounted : s.isDestroyed = false)
    (hidle : s.isDragging = false) (hed : ed.setupPasses = true)
    (hpre : ∀ ev ∈ pre, ev.duringDrag = true) (hpost : ∀ ev ∈ post, ev.duringDrag = true)
    (hed' : ed'.usable = true) :
    (∀ node, edAway.nodeAt = .value node → isImage node = false →
      (run s (.mouseDown handle e targetCursor ed :: pre
        ++ [.editorUpdate edAway])).showHandles = false) ∧
    (run s (.mouseDown handle e targetCursor ed :: pre
        ++ [.editorUpdate edAway])).isDragging = true ∧
    (run s (.mouseDown handle e targetCursor ed :: pre
        ++ [.editorUpdate edAway])).setImageWidthCalls = s.setImageWidthCalls ∧
    (run s (.mouseDown handle e targetCursor ed :: (pre ++ [.editorUpdate edAway] ++ post)
        ++ [.mouseUp ed'])).setImageWidthCalls =
      (match ed.resolvesImage, lastMove (pre ++ [.editorUpdate edAway] ++ post) with
       | true, some eLast =>
           s.setImageWidthCalls ++
             [px (roundedSize (some handle)
               ⟨e.clientX, e.clientY, s.imagePosition.width, s.imagePosition.height⟩
               eLast).1]
       | _, _ => s.setImageWidthCalls) := by
  have hmid : ∀ ev ∈ pre ++ [Event.editorUpdate edAway], ev.duringDrag = true := by
    intro ev hev
    rcases List.mem_append.mp hev with h | h
    · exact hpre ev h
    · simp only [List.mem_singleton] at h
      subst h
      rfl
  have hall : ∀ ev ∈ pre ++ [Event.editorUpdate edAway] ++ post, ev.duringDrag = true := by
    intro ev hev
    rcases List.mem_append.mp hev with h | h
    · exact hmid ev h
    · exact hpost ev h
  refine ⟨?_, ?_, ?_, ?_⟩
  · intro node haway hnot
    have hm := run_drag_mounted s handle e targetCursor ed pre hshow hmounted hidle hed hpre
    rw [run_snoc]
    simp only [step, hm]
    exact updateHandles_not_image edAway _ node haway hnot
  · obtain ⟨_, _, _, _, _, hdrag⟩ :=
      run_drag s handle e targetCursor ed _ hshow hmounted hidle hed hmid
    exact hdrag
  · obtain ⟨_, _, _, _, hcalls, _⟩ :=
      run_drag s handle e targetCursor ed _ hshow hmounted hidle hed hmid
    exact hcalls
  · obtain ⟨c, hc, hi, hf, hcalls, hdrag⟩ :=
      run_drag s handle e targetCursor ed _ hshow hmounted hidle hed hall
    rw [run_snoc, step_mouseUp_dragging _ c ed' hc hdrag]
    generalize run s (.mouseDown handle e targetCursor ed ::
      (pre ++ [Event.editorUpdate edAway] ++ post)) = s1 at hcalls
    cases himg : ed.resolvesImage <;>
      cases hl : lastMove (pre ++ [Event.editorUpdate edAway] ++ post) <;>
      rw [hl] at hf <;>
      simp [handleMouseUp, hf, hi, himg, hed', hcalls, roundedSize_fst_ne_zero]

/-- The drag of `commit_after_selection_loss` towards text, with one more
pointer-move after the selection moved. -/
theorem selection_loss_does_not_cancel_witness :
    (∀ node, textEditor.nodeAt = .value node → isImage node = false →
      (run selectedState (.mouseDown .se ⟨0, 0⟩ "" imageEditor ::
        [Event.mouseMove ⟨100, 0⟩] ++ [.editorUpdate textEditor])).showHandles = false) ∧
    (run selectedState (.mouseDown .se ⟨0, 0⟩ "" imageEditor :: [Event.mouseMove ⟨100, 0⟩]
        ++ [.editorUpdate textEditor])).isDragging = true ∧
    (run selectedState (.mouseDown .se ⟨0, 0⟩ "" imageEditor :: [Event.mouseMove ⟨100, 0⟩]
        ++ [.editorUpdate textEditor])).setImageWidthCalls
      = selectedState.setImageWidthCalls ∧
    (run selectedState (.mouseDown .se ⟨0, 0⟩ "" imageEditor ::
        ([Event.mouseMove ⟨100, 0⟩] ++ [.editorUpdate textEditor] ++ [.mouseMove ⟨120, 0⟩])
        ++ [.mouseUp textEditor])).setImageWidthCalls =
      (match imageEditor.resolvesImage,
          lastMove ([Event.mouseMove ⟨100, 0⟩] ++ [.editorUpdate textEditor]
            ++ [.mouseMove ⟨120, 0⟩]) with
       | true, some eLast =>
           selectedState.setImageWidthCalls ++
             [px (roundedSize (some .se)
               ⟨0, 0, selectedState.imagePosition.width,
                 selectedState.imagePosition.height⟩ eLast).1]
       | _, _ => selectedState.setImageWidthCalls) :=
  selection_loss_does_not_cancel selectedState .se ⟨0, 0⟩ "" imageEditor textEditor
    textEditor [.mouseMove ⟨100, 0⟩] [.mouseMove ⟨120, 0⟩]
    selectedState_props.1 selectedState_props.2.1 selectedState_props.2.2.1
    imageEditor_props.1 (by simp [Event.duringDrag]) (by simp [Event.duringDrag])
    (by simp [textEditor, imageEditor, Editor.usable])

theorem dragEffect_calls (ed : Editor) (s : State) :
    (dragEffect ed s).setImageWidthCalls = s.setImageWidthCalls := by
  unfold dragEffect
  repeat' split
  all_goals rfl

theorem rerunDragEffect_calls (ed : Editor) (before after : State) :
    (rerunDragEffect ed before after).setImageWidthCalls = after.setImageWidthCalls := by
  unfold rerunDragEffect
  split
  · rfl
  · rw [dragEffect_calls]

theorem usable_eq_false (ed : Editor)
    (h : ed.isDestroyed = true ∨ ed.hasView = false ∨ ed.dom ≠ .value true) :
    ed.usable = false := by
  obtain ⟨hasView, isDestroyed, dom, nodeAt, nodeDOM, editorRect⟩ := ed
  rcases h with h | h | h
  · simp only at h
    simp [Editor.usable, h]
  · simp only at h
    simp [Editor.usable, h]
  · cases dom with
    | raises => simp [Editor.usable]
    | value b =>
      cases b
      · simp [Editor.usable]
      · exact absurd rfl h

theorem handleMouseUp_calls_of_unusable (ed : Editor) (s : State) (c : Session)
    (h : ed.usable = false) :
    (handleMouseUp ed s c).setImageWidthCalls = s.setImageWidthCalls := by
  unfold handleMouseUp
  cases c.finalWidth <;> simp [h]

theorem step_calls_of_unusable (s : State) (ev : Event)
    (h : ∀ ed, ev = .mouseUp ed → ed.usable = false) :
    (step s ev).setImageWidthCalls = s.setImageWidthCalls := by
  cases ev with
  | editorUpdate ed =>
      simp only [step]
      split
      · rfl
      · exact (updateHandles_frame ed s).2.1
  | mouseDown handle e targetCursor ed =>
      simp only [step]
      split
      · rw [rerunDragEffect_calls]
        rfl
      · rfl
  | mouseMove e =>
      simp only [step]
      split <;> rfl
  | frame =>
      simp only [step]
      split
      · unfold animationFrame
        split <;> rfl
      · rfl
  | mouseUp ed =>
      simp only [step]
      split
      · rw [rerunDragEffect_calls, handleMouseUp_calls_of_unusable _ _ _ (h ed rfl)]
      · rfl
  | unmount => rfl

theorem run_calls_of_unusable (evs : List Event) :
    ∀ s : State, (∀ ed, Event.mouseUp ed ∈ evs → ed.usable = false) →
      (run s evs).setImageWidthCalls = s.setImageWidthCalls := by
  induction evs with
  | nil => intro s _; rfl
  | cons ev evs ih =>
      intro s h
      rw [run_cons, ih (step s ev) (fun ed hmem => h ed (List.mem_cons_of_mem _ hmem))]
      exact step_calls_of_unusable s ev (fun ed heq => h ed (by rw [heq]; exact List.mem_cons_self _ _))

/-- C8: when at pointer-up the editor is destroyed, or `editor.view` or
`editor.view.dom` is unavailable, `handleMouseUp` issues no `setImageWidth`, whatever
events came between the pointer-down and the pointer-up. -/
theorem no_commit_on_destroyed_editor (s : State) (handle : Handle) (e : MouseEvent)
    (targetCursor : String) (ed ed' : Editor) (evs : List Event) (c : Session)
    (hevs : ∀ ev ∈ evs, ev.duringDrag = true)
    (hdead : ed'.isDestroyed = true ∨ ed'.hasView = false ∨ ed'.dom ≠ .value true) :
    (handleMouseUp ed' s c).setImageWidthCalls = s.setImageWidthCalls ∧
    (run s (.mouseDown handle e targetCursor ed :: evs ++ [.mouseUp ed'])).setImageWidthCalls
      = s.setImageWidthCalls := by
  have hu := usable_eq_false ed' hdead
  refine ⟨handleMouseUp_calls_of_unusable ed' s c hu, ?_⟩
  apply run_calls_of_unusable
  intro ed0 hmem
  simp only [List.cons_append, List.mem_cons, List.mem_append, List.mem_singleton,
    reduceCtorEq, false_or] at hmem
  rcases hmem with hmem | hmem
  · have := hevs _ hmem
    simp [Event.duringDrag] at this
  · have heq : ed0 = ed' := by simpa using hmem
    rw [heq]
    exact hu

/-- A drag of `se` with a pointer-move and a frame, the editor being destroyed when
the pointer is released. -/
theorem no_commit_on_destroyed_editor_witness :
    (handleMouseUp destroyedEditor selectedState
        ⟨none, true, some 300, some .se⟩).setImageWidthCalls
      = selectedState.setImageWidthCalls ∧
    (run selectedState (.mouseDown .se ⟨0, 0⟩ "" imageEditor ::
        [Event.mouseMove ⟨100, 0⟩, .frame] ++ [.mouseUp destroyedEditor])).setImageWidthCalls
      = selectedState.setImageWidthCalls :=
  no_commit_on_destroyed_editor selectedState .se ⟨0, 0⟩ "" imageEditor destroyedEditor
    [.mouseMove ⟨100, 0⟩, .frame] ⟨none, true, some 300, some .se⟩
    (by simp [Event.duringDrag]) (Or.inl rfl)

/-- C9 fails on the code: the body styles set at pointer-down are cleared by
`handleMouseUp` only.  When the drag effect aborts at set-up (here on a destroyed
editor) the component is left with `isDragging` false, no listener and the body still
suppressed, and a later pointer-up changes nothing; when the component is unmounted
in the middle of a drag the body stays suppressed as well. -/
theorem body_style_left_suppressed :
    (run selectedState [.mouseDown .se ⟨0, 0⟩ "se-resize" destroyedEditor]).body
      = ⟨"none", "none", "se-resize"⟩ ∧
    (run selectedState [.mouseDown .se ⟨0, 0⟩ "se-resize" destroyedEditor]).isDragging
      = false ∧
    (run selectedState [.mouseDown .se ⟨0, 0⟩ "se-resize" destroyedEditor]).session
      = none ∧
    (run selectedState [.mouseDown .se ⟨0, 0⟩ "se-resize" destroyedEditor,
        .mouseUp imageEditor]).body = ⟨"none", "none", "se-resize"⟩ ∧
    (run selectedState [.mouseDown .se ⟨0, 0⟩ "se-resize" imageEditor,
        .mouseMove ⟨100, 0⟩, .unmount]).body = ⟨"none", "none", "se-resize"⟩ ∧
    (run selectedState [.mouseDown .se ⟨0, 0⟩ "se-resize" imageEditor,
        .mouseMove ⟨100, 0⟩, .unmount, .mouseUp imageEditor]).body
      = ⟨"none", "none", "se-resize"⟩ := by
  decide!

/-- C10: on an update of a usable editor, `updateHandles` publishes `showHandles`
true and the rectangle of the image relative to the editing surface when the node at
`selection.from` is an `imageResize` node with a DOM element, and `showHandles` false
when that node is null or of another type. -/
theorem updateHandles_publishes (ed : Editor) (s : State) (husable : ed.usable = true) :
    step s (.editorUpdate ed) = (if s.isDestroyed then s else updateHandles ed s) ∧
    (∀ tagIsImg innerImg rect, ed.nodeAt = .value (some "imageResize") →
      ed.nodeDOM = .value (.element tagIsImg innerImg rect) →
      (updateHandles ed s).showHandles = true ∧
      (updateHandles ed s).imagePosition =
        { top := rect.top - ed.editorRect.top
          left := rect.left - ed.editorRect.left
          width := rect.width
          height := .fin rect.height }) ∧
    (∀ node, ed.nodeAt = .value node → node ≠ some "imageResize" →
      (updateHandles ed s).showHandles = false) := by
  obtain ⟨hasView, isDestroyed, dom, nodeAt, nodeDOM, editorRect⟩ := ed
  simp only [Editor.usable, Bool.and_eq_true, Bool.not_eq_true'] at husable
  obtain ⟨⟨hdes, hview⟩, hdom⟩ := husable
  subst hdes hview
  cases dom with
  | raises => simp at hdom
  | value b =>
    simp only at hdom
    subst hdom
    refine ⟨rfl, ?_, ?_⟩
    · intro tagIsImg innerImg rect hnode hdomNode
      simp only at hnode hdomNode
      subst hnode hdomNode
      simp [updateHandles, isImage]
    · intro node hnode hne
      simp only at hnode
      subst hnode
      apply updateHandles_not_image _ _ node rfl
      cases node with
      | none => rfl
      | some name =>
          simp only [isImage, beq_eq_false_iff_ne, ne_eq]
          intro hname
          exact hne (by rw [hname])

/-- An update with the selection on the image of `imageEditor`, and one with the
selection in text. -/
theorem updateHandles_publishes_witness :
    step State.init (.editorUpdate imageEditor)
      = (if State.init.isDestroyed then State.init
         else updateHandles imageEditor State.init) ∧
    ((updateHandles imageEditor State.init).showHandles = true ∧
      (updateHandles imageEditor State.init).imagePosition =
        { top := 30 - 20, left := 40 - 20, width := 200, height := .fin 100 }) ∧
    (updateHandles textEditor selectedState).showHandles = false :=
  ⟨(updateHandles_publishes imageEditor State.init imageEditor_props.2.2).1,
    (updateHandles_publishes imageEditor State.init imageEditor_props.2.2).2.1
      true false ⟨30, 40, 200, 100⟩ rfl rfl,
    (updateHandles_publishes textEditor selectedState
      (by simp [textEditor, imageEditor, Editor.usable])).2.2 (some "text") rfl
      (by decide)⟩

end ImageResizeHandles

namespace ImageResizeHandles

/-! ## Unavailable accessors in `updateHandles` -/

/-- Every unavailable accessor but one makes `updateHandles` publish "none": a missing
view, a destroyed editor, a missing or raising `view.dom`, a raising or null `nodeAt`,
a raising `nodeDOM`. -/
theorem updateHandles_unavailable (ed : Editor) (s : State)
    (h : ed.hasView = false ∨ ed.isDestroyed = true ∨ ed.dom ≠ .value true ∨
      ed.nodeAt = .raises ∨ ed.nodeAt = .value none ∨ ed.nodeDOM = .raises) :
    (updateHandles ed s).showHandles = false := by
  obtain ⟨hasView, isDestroyed, dom, nodeAt, nodeDOM, editorRect⟩ := ed
  cases hasView <;> cases isDestroyed <;> rcases dom with _ | (_ | _) <;>
    rcases nodeAt with _ | (_ | node) <;>
    rcases nodeDOM with _ | (_ | _ | ⟨tagIsImg, innerImg, rect⟩) <;>
    first
      | (simp [updateHandles, isImage]; done)
      | (simp at h)

/-- C11 fails on the code: when the node at `selection.from` is an image but
`view.nodeDOM(from)` returns null, or a node that is not an `HTMLElement`,
`updateHandles` publishes nothing, so handles that were shown stay shown with the
box they had. -/
theorem updateHandles_stale_without_dom :
    selectedState.showHandles = true ∧
    (updateHandles nullDomEditor selectedState).showHandles = true ∧
    (updateHandles nonElementDomEditor selectedState).showHandles = true ∧
    updateHandles nullDomEditor selectedState = selectedState ∧
    updateHandles nonElementDomEditor selectedState = selectedState := by
  refine ⟨selectedState_props.1, ?_, ?_, ?_, ?_⟩ <;>
    simp [updateHandles, nullDomEditor, nonElementDomEditor, imageEditor, isImage,
      selectedState_props.1]

end ImageResizeHandles

namespace ImageResize

/-! ## Decimal numerals as strings -/

theorem digitChar_isDigit (d : Nat) (h : d < 10) : (Nat.digitChar d).isDigit = true := by
  interval_cases d <;> decide

theorem toDigitsCore_isDigit (fuel : Nat) :
    ∀ (n : Nat) (ds : List Char), (∀ c ∈ ds, c.isDigit = true) →
      ∀ c ∈ Nat.toDigitsCore 10 fuel n ds, c.isDigit = true := by
  induction fuel with
  | zero =>
      intro n ds hds c hc
      simpa [Nat.toDigitsCore] using hds c (by simpa [Nat.toDigitsCore] using hc)
  | succ fuel ih =>
      intro n ds hds c hc
      have hd : (Nat.digitChar (n % 10)).isDigit = true :=
        digitChar_isDigit _ (Nat.mod_lt _ (by decide))
      have hcons : ∀ c ∈ Nat.digitChar (n % 10) :: ds, c.isDigit = true := by
        intro c' hc'
        rcases List.mem_cons.mp hc' with h | h
        · rw [h]; exact hd
        · exact hds c' h
      simp only [Nat.toDigitsCore] at hc
      split at hc
      · exact hcons c hc
      · exact ih _ _ hcons c hc

theorem toString_isDigit (n : Nat) : ∀ c ∈ (toString n).data, c.isDigit = true := by
  intro c hc
  have : (toString n).data = Nat.toDigits 10 n := rfl
  rw [this] at hc
  exact toDigitsCore_isDigit _ _ _ (by simp) c hc

theorem toString_ne_of_not_digit (n : Nat) (s : String) (c : Char) (hc : c ∈ s.data)
    (hnd : c.isDigit = false) : s ≠ toString n := by
  intro h
  rw [h] at hc
  have := toString_isDigit n c hc
  rw [this] at hnd
  cases hnd

theorem percent_ne_px (n : Nat) : "50%" ≠ toString n ++ "px" := by
  intro h
  have hd := congrArg String.data h
  rw [String.data_append] at hd
  have hr := congrArg List.reverse hd
  simp at hr

theorem percent_not_positivePixels : ¬ IsPositivePixels "50%" := by
  rintro ⟨n, _, h | h⟩
  · exact percent_ne_px n h
  · exact toString_ne_of_not_digit n "50%" '%' (by decide) (by decide) h

end ImageResize

namespace ImageResize

/-! ## Alignment and width of an image node -/

/-- C12, as stated, fails: an `img` element with `data-align="justify"` parses to a
node whose `dataAlign` is `justify`, and `setImageAlign('justify')` stores `justify`
on the selected image; neither is one of the four modes. -/
theorem dataAlign_not_validated :
    (parseHTML ⟨[("src", "a.png"), ("data-align", "justify")], ""⟩).map Attrs.dataAlign
      = some (some "justify") ∧
    (setImageAlign framework (some "justify")
        ⟨[.image ⟨some "a.png", none, none, none, some "center"⟩], 0, 1⟩).2.doc
      = [.image ⟨some "a.png", none, none, none, some "justify"⟩] ∧
    ¬ IsAlignMode (some "justify") := by
  refine ⟨by decide, by decide, ?_⟩
  simp [IsAlignMode]

/-- C12, amended: parsing an `img` element gives `dataAlign` the value of its
`data-align` attribute when that is a non-empty string and `center` otherwise, and
`setImageAlign(align)` hands `align` unchanged to `updateAttributes`, which stores it
on every selected image.  So `dataAlign` is one of the four modes after parsing when
the attribute is absent, empty or one of the four modes, and after
`setImageAlign(align)` when `align` is. -/
theorem dataAlign_passes_through (element : ImgElement) (align : Option String)
    (σ : Type) (commands : Commands σ) (p : AttrPatch) (a : Attrs) :
    parseDataAlign element =
      (if truthy (element.getAttribute "data-align") then element.getAttribute "data-align"
       else some "center") ∧
    (element.getAttribute "data-align" = none ∨ element.getAttribute "data-align" = some "" ∨
        IsAlignMode (element.getAttribute "data-align") →
      IsAlignMode (parseDataAlign element)) ∧
    setImageAlign commands align = commands.updateAttributes "imageResize" ⟨none, some align⟩ ∧
    (applyPatch ⟨p.width, some align⟩ a).dataAlign = align ∧
    (IsAlignMode align → IsAlignMode (applyPatch ⟨p.width, some align⟩ a).dataAlign) := by
  refine ⟨rfl, ?_, rfl, rfl, fun h => h⟩
  intro h
  unfold parseDataAlign
  rcases h with h | h | h
  · simp [h, truthy, IsAlignMode]
  · simp [h, truthy, IsAlignMode]
  · split
    · exact h
    · simp [IsAlignMode]

end ImageResize

namespace ImageResize

theorem toString_ofNat (m : Nat) : toString (Int.ofNat m) = toString m := rfl

theorem px_positivePixels (w : ℤ) (h : 50 ≤ w) :
    ∃ n : ℕ, 50 ≤ n ∧ ImageResizeHandles.px w = toString n ++ "px" ∧
      IsPositivePixels (toString n ++ "px") := by
  obtain ⟨m, rfl⟩ := Int.eq_ofNat_of_zero_le (le_trans (by decide) h)
  have hm : 50 ≤ m := by exact_mod_cast h
  exact ⟨m, hm, rfl, m, by omega, Or.inl rfl⟩

/-- C13, as stated, fails: an `img` element with `width="50%"`, or with the inline
style width `50%`, parses to a node whose `width` is `50%`, and
`setImageWidth('50%')` stores `50%` on the selected image; `50%` is not a positive
integer number of pixels. -/
theorem width_not_validated :
    (parseHTML ⟨[("src", "a.png"), ("width", "50%")], ""⟩).map Attrs.width
      = some (some "50%") ∧
    (parseHTML ⟨[("src", "a.png"), ("style", "width: 50%")], "50%"⟩).map Attrs.width
      = some (some "50%") ∧
    (setImageWidth framework (some "50%")
        ⟨[.image ⟨some "a.png", none, none, none, some "center"⟩], 0, 1⟩).2.doc
      = [.image ⟨some "a.png", none, none, some "50%", some "center"⟩] ∧
    ¬ IsPositivePixels "50%" :=
  ⟨by decide, by decide, by decide, percent_not_positivePixels⟩

/-- C13, amended: the width committed by the resize drag is the string `<n>px` for an
integer `n` of at least 50, a positive integer number of pixels.  The parse rule and
`setImageWidth` validate nothing: parsing stores the `width` attribute of the `img`
when it is a non-empty string, else its inline style width when that is non-empty,
else `null`, and `setImageWidth(width)` hands `width` unchanged to
`updateAttributes`, which stores it on every selected image. -/
theorem width_sources (element : ImgElement) (width : Option String) (σ : Type)
    (commands : Commands σ) (p : AttrPatch) (a : Attrs) (e : ImageResizeHandles.MouseEvent)
    (start : ImageResizeHandles.DragStart) (c : ImageResizeHandles.Session)
    (s : ImageResizeHandles.State) (ed : ImageResizeHandles.Editor) :
    parseWidth element =
      (if truthy (element.getAttribute "width") then element.getAttribute "width"
       else if element.styleWidth ≠ "" then some element.styleWidth else none) ∧
    setImageWidth commands width = commands.updateAttributes "imageResize" ⟨some width, none⟩ ∧
    (applyPatch ⟨some width, p.dataAlign⟩ a).width = width ∧
    ∃ n : ℕ, 50 ≤ n ∧ IsPositivePixels (toString n ++ "px") ∧
      (ImageResizeHandles.handleMouseUp ed s
          (ImageResizeHandles.handleMouseMove e start c)).setImageWidthCalls =
        s.setImageWidthCalls ++
          (if c.imgElement && ed.usable then [toString n ++ "px"] else []) := by
  refine ⟨?_, rfl, rfl, ?_⟩
  · unfold parseWidth truthy
    cases h : element.getAttribute "width" with
    | none => simp
    | some w =>
        by_cases hw : w = ""
        · simp [hw]
        · simp [hw]
  · have h50 : (50 : ℤ) ≤ (ImageResizeHandles.roundedSize c.activeHandle start e).1 :=
      ImageResizeHandles.le_mathRound_of_le 50 _
        (by exact_mod_cast ImageResizeHandles.minSize_le_newSize _ _ _)
    obtain ⟨n, hn, hpx, hpos⟩ := px_positivePixels _ h50
    refine ⟨n, hn, hpos, ?_⟩
    rw [← hpx]
    simp only [ImageResizeHandles.handleMouseUp, ImageResizeHandles.handleMouseMove,
      ImageResizeHandles.roundedSize_fst_ne_zero, Bool.true_and]
    split <;> simp

end ImageResize

namespace ImageResize

/-! ## Rendering the width -/

theorem lookup_renderIfTruthy_append (attr k : String) (v : Option String)
    (rest : List (String × String)) (h : k ≠ attr) :
    (renderIfTruthy attr v ++ rest).lookup k = rest.lookup k := by
  have hb : (k == attr) = false := by simpa using h
  unfold renderIfTruthy
  cases v with
  | none => rfl
  | some s =>
      by_cases hs : s = ""
      · simp [hs]
      · simp [hs, List.lookup, hb]

theorem lookup_renderDataAlign_append (k : String) (v : Option String)
    (rest : List (String × String)) (h : k ≠ "data-align") :
    (renderDataAlign v ++ rest).lookup k = rest.lookup k := by
  have hb : (k == "data-align") = false := by simpa using h
  unfold renderDataAlign
  cases v with
  | none => rfl
  | some s => simp [List.lookup, hb]

theorem lookup_width_attrs (a : Attrs) (rest : List (String × String)) :
    (HTMLAttributes a ++ rest).lookup "width" =
      (if truthy a.width then a.width else rest.lookup "width") := by
  unfold HTMLAttributes
  simp only [List.append_assoc]
  rw [lookup_renderIfTruthy_append _ _ _ _ (by decide),
    lookup_renderIfTruthy_append _ _ _ _ (by decide),
    lookup_renderIfTruthy_append _ _ _ _ (by decide)]
  unfold renderIfTruthy truthy
  cases a.width with
  | none => simp [lookup_renderDataAlign_append]
  | some w =>
      by_cases hw : w = ""
      · simp [hw, lookup_renderDataAlign_append]
      · simp [hw, List.lookup]

theorem lookup_style_attrs (a : Attrs) (rest : List (String × String)) :
    (HTMLAttributes a ++ rest).lookup "style" = rest.lookup "style" := by
  unfold HTMLAttributes
  simp only [List.append_assoc]
  rw [lookup_renderIfTruthy_append _ _ _ _ (by decide),
    lookup_renderIfTruthy_append _ _ _ _ (by decide),
    lookup_renderIfTruthy_append _ _ _ _ (by decide),
    lookup_renderIfTruthy_append _ _ _ _ (by decide),
    lookup_renderDataAlign_append _ _ _ (by decide)]

theorem renderHTML_of_width (a : Attrs) (w : String) (hw : a.width = some w)
    (hne : w ≠ "") :
    renderHTML a =
      HTMLAttributes a ++
        [("draggable", "false"), ("style", "width: " ++ w ++ "; height: auto;")] := by
  unfold renderHTML
  simp only [lookup_width_attrs, hw, truthy, bne_iff_ne, ne_eq, hne, not_false_eq_true,
    decide_True, if_true]
  simp

theorem renderHTML_of_no_width (a : Attrs) (hw : truthy a.width = false) :
    renderHTML a = HTMLAttributes a ++ [("draggable", "false")] := by
  unfold renderHTML
  simp only [lookup_width_attrs, hw]
  simp [List.lookup]

theorem plain_number_not_pixelStyle : ¬ IsPixelWidthStyle "width: 300; height: auto;" := by
  rintro ⟨n, h⟩
  have hd := congrArg String.data h
  simp only [String.data_append] at hd
  have hr := congrArg List.reverse hd
  simp at hr

theorem percent_not_pixelStyle : ¬ IsPixelWidthStyle "width: 50%; height: auto;" := by
  rintro ⟨n, h⟩
  have hd := congrArg String.data h
  simp only [String.data_append] at hd
  have hr := congrArg List.reverse hd
  simp at hr

/-- C14, as stated, fails: a node whose width is `300` (as parsed from
`<img width="300">`) or `50%` renders with the inline style `width: 300; height: auto;`
or `width: 50%; height: auto;`, neither of the form `width: <n>px; height: auto;`. -/
theorem style_without_unit :
    (renderHTML ⟨some "a.png", none, none, some "300", some "center"⟩).lookup "width"
      = some "300" ∧
    (renderHTML ⟨some "a.png", none, none, some "300", some "center"⟩).lookup "style"
      = some "width: 300; height: auto;" ∧
    ¬ IsPixelWidthStyle "width: 300; height: auto;" ∧
    (renderHTML ⟨some "a.png", none, none, some "50%", some "center"⟩).lookup "style"
      = some "width: 50%; height: auto;" ∧
    ¬ IsPixelWidthStyle "width: 50%; height: auto;" :=
  ⟨by decide, by decide, plain_number_not_pixelStyle, by decide, percent_not_pixelStyle⟩

/-- C14, amended: for a node whose width is a non-empty string `w`, the rendered
attributes carry `width` with value `w` and the inline style
`width: <w>; height: auto;` with `w` copied as it is, so the style has the form
`width: <n>px; height: auto;` when `w` is `<n>px`; when the width is `null` or empty
neither a `width` attribute nor a `style` is emitted. -/
theorem width_rendered_verbatim (a : Attrs) :
    (∀ w, a.width = some w → w ≠ "" →
      (renderHTML a).lookup "width" = some w ∧
      (renderHTML a).lookup "style" = some ("width: " ++ w ++ "; height: auto;")) ∧
    (∀ n : ℕ, a.width = some (toString n ++ "px") →
      (renderHTML a).lookup "width" = some (toString n ++ "px") ∧
      (renderHTML a).lookup "style"
        = some ("width: " ++ toString n ++ "px; height: auto;")) ∧
    (truthy a.width = false →
      (renderHTML a).lookup "width" = none ∧ (renderHTML a).lookup "style" = none) := by
  have key : ∀ w, a.width = some w → w ≠ "" →
      (renderHTML a).lookup "width" = some w ∧
      (renderHTML a).lookup "style" = some ("width: " ++ w ++ "; height: auto;") := by
    intro w hw hne
    rw [renderHTML_of_width a w hw hne, lookup_width_attrs, lookup_style_attrs]
    constructor
    · simp [hw, truthy, hne]
    · simp [List.lookup]
  refine ⟨key, ?_, ?_⟩
  · intro n hw
    have hne : toString n ++ "px" ≠ "" := by
      intro h
      have hd := congrArg String.data h
      simp [String.data_append] at hd
    have := key _ hw hne
    simpa [String.append_assoc] using this
  · intro hw
    rw [renderHTML_of_no_width a hw, lookup_width_attrs, lookup_style_attrs]
    simp [hw, List.lookup]

end ImageResize

namespace ImageResize

/-! ## Rendering an image node and parsing it back -/

theorem lookup_renderIfTruthy_self (attr : String) (v : Option String)
    (rest : List (String × String)) :
    (renderIfTruthy attr v ++ rest).lookup attr =
      (if truthy v then v else rest.lookup attr) := by
  unfold renderIfTruthy truthy
  cases v with
  | none => simp
  | some s =>
      by_cases hs : s = ""
      · simp [hs]
      · simp [hs, List.lookup]

theorem lookup_src_attrs (a : Attrs) (rest : List (String × String)) :
    (HTMLAttributes a ++ rest).lookup "src" =
      (if truthy a.src then a.src else rest.lookup "src") := by
  unfold HTMLAttributes
  simp only [List.append_assoc]
  rw [lookup_renderIfTruthy_self, lookup_renderIfTruthy_append _ _ _ _ (by decide),
    lookup_renderIfTruthy_append _ _ _ _ (by decide),
    lookup_renderIfTruthy_append _ _ _ _ (by decide),
    lookup_renderDataAlign_append _ _ _ (by decide)]

theorem lookup_alt_attrs (a : Attrs) (rest : List (String × String)) :
    (HTMLAttributes a ++ rest).lookup "alt" =
      (if truthy a.alt then a.alt else rest.lookup "alt") := by
  unfold HTMLAttributes
  simp only [List.append_assoc]
  rw [lookup_renderIfTruthy_append _ _ _ _ (by decide), lookup_renderIfTruthy_self,
    lookup_renderIfTruthy_append _ _ _ _ (by decide),
    lookup_renderIfTruthy_append _ _ _ _ (by decide),
    lookup_renderDataAlign_append _ _ _ (by decide)]

theorem lookup_title_attrs (a : Attrs) (rest : List (String × String)) :
    (HTMLAttributes a ++ rest).lookup "title" =
      (if truthy a.title then a.title else rest.lookup "title") := by
  unfold HTMLAttributes
  simp only [List.append_assoc]
  rw [lookup_renderIfTruthy_append _ _ _ _ (by decide),
    lookup_renderIfTruthy_append _ _ _ _ (by decide), lookup_renderIfTruthy_self,
    lookup_renderIfTruthy_append _ _ _ _ (by decide),
    lookup_renderDataAlign_append _ _ _ (by decide)]

theorem lookup_dataAlign_attrs (a : Attrs) (rest : List (String × String)) :
    (HTMLAttributes a ++ rest).lookup "data-align" =
      (match a.dataAlign with
       | some s => some s
       | none => rest.lookup "data-align") := by
  unfold HTMLAttributes
  simp only [List.append_assoc]
  rw [lookup_renderIfTruthy_append _ _ _ _ (by decide),
    lookup_renderIfTruthy_append _ _ _ _ (by decide),
    lookup_renderIfTruthy_append _ _ _ _ (by decide),
    lookup_renderIfTruthy_append _ _ _ _ (by decide)]
  unfold renderDataAlign
  cases a.dataAlign with
  | none => rfl
  | some s => simp [List.lookup]

/-- The attributes read back from a rendered node whose `src` is truthy. -/
theorem parse_render (cssWidth : String → String) (a : Attrs) (hsrc : truthy a.src = true) :
    parseHTML (toElement cssWidth (renderHTML a)) =
      some
        { src := a.src
          alt := if truthy a.alt then a.alt else none
          title := if truthy a.title then a.title else none
          width := if truthy a.width then a.width else none
          dataAlign :=
            if truthy a.dataAlign then a.dataAlign else some "center" } := by
  have hsome : ¬ a.src = none := by
    intro h
    simp [truthy, h] at hsrc
  cases hw : truthy a.width with
  | false =>
      have hr := renderHTML_of_no_width a hw
      simp only [parseHTML, parseSrc, parseAlt, parseTitle, parseWidth, parseDataAlign,
        toElement, ImgElement.getAttribute, hr, lookup_src_attrs, lookup_alt_attrs,
        lookup_title_attrs, lookup_width_attrs, lookup_dataAlign_attrs, lookup_style_attrs,
        hsrc, hw]
      cases hd : a.dataAlign with
      | none => simp [List.lookup, truthy, hsrc, hsome]
      | some s =>
          by_cases hs : s = ""
          · simp [List.lookup, truthy, hs, hsrc, hsome]
          · simp [List.lookup, truthy, hs, hsrc, hsome]
  | true =>
      obtain ⟨w, hwv, hne⟩ : ∃ w, a.width = some w ∧ w ≠ "" := by
        cases hv : a.width with
        | none => simp [truthy, hv] at hw
        | some w => exact ⟨w, rfl, by simpa [truthy, hv] using hw⟩
      have hr := renderHTML_of_width a w hwv hne
      simp only [parseHTML, parseSrc, parseAlt, parseTitle, parseWidth, parseDataAlign,
        toElement, ImgElement.getAttribute, hr, lookup_src_attrs, lookup_alt_attrs,
        lookup_title_attrs, lookup_width_attrs, lookup_dataAlign_attrs, lookup_style_attrs,
        hsrc, hw]
      cases hd : a.dataAlign with
      | none => simp [List.lookup, truthy, hsrc, hwv, hne, hsome]
      | some s =>
          by_cases hs : s = ""
          · simp [List.lookup, truthy, hs, hsrc, hwv, hne, hsome]
          · simp [List.lookup, truthy, hs, hsrc, hwv, hne, hsome]

end ImageResize

namespace ImageResize

/-- C15, as stated, fails: `setImage` with an empty `alt` produces a node whose `alt`
is the empty string; rendered, the `img` has no `alt` attribute, and parsed back the
node has `alt` null.  `setImage` without `src` produces a node that renders to an
`img` without `src`, which the rule `img[src]` does not parse at all. -/
theorem roundtrip_loses_falsy_attributes :
    (setImage framework ⟨some "a.png", some "", none, none, some "center"⟩ ⟨[], 0, 0⟩).2.doc
      = [.image ⟨some "a.png", some "", none, none, some "center"⟩] ∧
    parseHTML (toElement (fun _ => "")
        (renderHTML ⟨some "a.png", some "", none, none, some "center"⟩))
      = some ⟨some "a.png", none, none, none, some "center"⟩ ∧
    parseHTML (toElement (fun _ => "")
        (renderHTML ⟨some "a.png", some "", none, none, some "center"⟩))
      ≠ some ⟨some "a.png", some "", none, none, some "center"⟩ ∧
    (setImage framework ⟨none, none, none, none, some "center"⟩ ⟨[], 0, 0⟩).2.doc
      = [.image ⟨none, none, none, none, some "center"⟩] ∧
    parseHTML (toElement (fun _ => "")
        (renderHTML ⟨none, none, none, none, some "center"⟩)) = none := by
  refine ⟨by decide, by decide, by decide, by decide, by decide⟩

/-- C15, amended: for a node whose `src` and `dataAlign` are non-empty strings and
whose `alt`, `title` and `width` are each `null` or a non-empty string, parsing the
`img` rendered by `renderHTML` yields a node with the same five attributes, whatever
the browser makes of the `style` attribute. -/
theorem roundtrip_of_truthy_attributes (cssWidth : String → String) (a : Attrs)
    (hsrc : truthy a.src = true) (halt : a.alt = none ∨ truthy a.alt = true)
    (htitle : a.title = none ∨ truthy a.title = true)
    (hwidth : a.width = none ∨ truthy a.width = true)
    (halign : truthy a.dataAlign = true) :
    parseHTML (toElement cssWidth (renderHTML a)) = some a := by
  rw [parse_render cssWidth a hsrc]
  obtain ⟨src, alt, title, width, dataAlign⟩ := a
  simp only at halt htitle hwidth halign
  have e1 : (if truthy alt then alt else none) = alt := by
    rcases halt with h | h
    · simp [h, truthy]
    · simp [h]
  have e2 : (if truthy title then title else none) = title := by
    rcases htitle with h | h
    · simp [h, truthy]
    · simp [h]
  have e3 : (if truthy width then width else none) = width := by
    rcases hwidth with h | h
    · simp [h, truthy]
    · simp [h]
  simp only [e1, e2, e3, halign, if_true]

/-- An uploaded image resized to `300px` and aligned left. -/
theorem roundtrip_of_truthy_attributes_witness :
    parseHTML (toElement (fun _ => "")
        (renderHTML ⟨some "a.png", none, none, some "300px", some "left"⟩))
      = some ⟨some "a.png", none, none, some "300px", some "left"⟩ :=
  roundtrip_of_truthy_attributes (fun _ => "")
    ⟨some "a.png", none, none, some "300px", some "left"⟩ (by decide) (Or.inl rfl)
    (Or.inl rfl) (Or.inr (by decide)) (by decide)

end ImageResize

namespace GradientText

/-! ## Rendering a gradient mark and parsing it back -/

/-- C16, as stated, fails: `setGradient('')` produces a mark whose gradient is the
empty string; it renders as a `span` without attributes, which the rule
`span[data-gradient]` does not parse, so the mark is lost. -/
theorem empty_gradient_not_rendered :
    setGradient (fun (_ : String) (a : Attrs) (marks : List Attrs) => (true, a :: marks))
        (some "") [] = (true, [⟨some ""⟩]) ∧
    renderHTML ⟨some ""⟩ = [] ∧
    parseHTML ⟨renderHTML ⟨some ""⟩⟩ = none := by
  refine ⟨rfl, by decide, by decide⟩

/-- C16, amended: for every non-empty `spec`, the mark that `setGradient(spec)` hands
to `setMark` renders as a `span` whose attributes are `data-gradient` with value
`spec` and a `style` that starts with `background: <spec>` followed by the
`-webkit-background-clip: text` rules, and parsing that `span` yields a mark with the
same gradient. -/
theorem gradient_roundtrip (spec : String) (hspec : spec ≠ "") (σ : Type)
    (setMark : String → Attrs → σ → Bool × σ) :
    setGradient setMark (some spec) = setMark "gradientText" ⟨some spec⟩ ∧
    renderHTML ⟨some spec⟩ =
      [("data-gradient", spec),
        ("style",
          "background: " ++ spec ++
            "; -webkit-background-clip: text; -webkit-text-fill-color: transparent; background-clip: text;")] ∧
    parseHTML ⟨renderHTML ⟨some spec⟩⟩ = some ⟨some spec⟩ := by
  have hr : renderHTML ⟨some spec⟩ =
      [("data-gradient", spec),
        ("style",
          "background: " ++ spec ++
            "; -webkit-background-clip: text; -webkit-text-fill-color: transparent; background-clip: text;")] := by
    simp [renderHTML, renderGradient, hspec]
  refine ⟨rfl, hr, ?_⟩
  rw [hr]
  simp [parseHTML, SpanElement.getAttribute, List.lookup]

/-- A linear gradient from red to blue. -/
theorem gradient_roundtrip_witness :
    setGradient (fun (_ : String) (a : Attrs) (marks : List Attrs) => (true, a :: marks))
        (some "linear-gradient(90deg, red, blue)")
      = (fun (_ : String) (a : Attrs) (marks : List Attrs) => (true, a :: marks))
          "gradientText" ⟨some "linear-gradient(90deg, red, blue)"⟩ ∧
    renderHTML ⟨some "linear-gradient(90deg, red, blue)"⟩ =
      [("data-gradient", "linear-gradient(90deg, red, blue)"),
        ("style",
          "background: " ++ "linear-gradient(90deg, red, blue)" ++
            "; -webkit-background-clip: text; -webkit-text-fill-color: transparent; background-clip: text;")] ∧
    parseHTML ⟨renderHTML ⟨some "linear-gradient(90deg, red, blue)"⟩⟩
      = some ⟨some "linear-gradient(90deg, red, blue)"⟩ :=
  gradient_roundtrip "linear-gradient(90deg, red, blue)" (by decide) (List Attrs)
    (fun _ a marks => (true, a :: marks))

end GradientText

namespace ImageResize

/-! ## The image commands on a selection without an image -/

theorem patchFrom_of_no_selected_image (p : AttrPatch) (selFrom selTo : Nat)
    (l : List Inline) :
    ∀ i, selectedImagesFrom selFrom selTo i l = [] → patchFrom p selFrom selTo i l = l := by
  induction l with
  | nil => intro i _; rfl
  | cons n rest ih =>
      intro i h
      cases n with
      | text content =>
          simp only [selectedImagesFrom] at h
          simp only [patchFrom, ih (i + 1) h]
      | image a =>
          simp only [selectedImagesFrom, List.append_eq_nil] at h
          obtain ⟨h1, h2⟩ := h
          have hsel : ¬ (selFrom ≤ i ∧ i < selTo) := by
            intro hc
            simp [hc] at h1
          simp only [patchFrom, hsel, if_false, ih (i + 1) h2]

/-- C17, as stated, fails: with the selection on a run of text, `setImageAlign('left')`
and `setImageWidth('300px')` leave the document unchanged but return `true`, the
result of `updateAttributes`, not a failure; and with two images selected
`setImageAlign('left')` changes both. -/
theorem image_commands_report_success :
    setImageAlign framework (some "left")
        ⟨[.text "hello", .image ⟨some "a.png", none, none, none, some "center"⟩], 0, 1⟩
      = (true,
          ⟨[.text "hello", .image ⟨some "a.png", none, none, none, some "center"⟩], 0, 1⟩) ∧
    setImageWidth framework (some "300px")
        ⟨[.text "hello", .image ⟨some "a.png", none, none, none, some "center"⟩], 0, 1⟩
      = (true,
          ⟨[.text "hello", .image ⟨some "a.png", none, none, none, some "center"⟩], 0, 1⟩) ∧
    (setImageAlign framework (some "left")
        ⟨[.image ⟨some "a.png", none, none, none, some "center"⟩,
          .image ⟨some "b.png", none, none, none, some "right"⟩], 0, 2⟩).2.doc
      = [.image ⟨some "a.png", none, none, none, some "left"⟩,
          .image ⟨some "b.png", none, none, none, some "left"⟩] := by
  refine ⟨by decide, by decide, by decide⟩

/-- C17, amended: `setImageAlign(mode)` and `setImageWidth(px)` make no applicability
check of their own; each returns what `updateAttributes('imageResize', ...)` of the
framework returns.  With the framework's `updateAttributes`, a selection that holds
no image leaves the document unchanged and the command reports success (`true`). -/
theorem image_commands_forward (σ : Type) (commands : Commands σ) (s : σ)
    (mode width : Option String) (st : EditorState) (hsel : st.selectedImages = []) :
    setImageAlign commands mode s
      = commands.updateAttributes "imageResize" ⟨none, some mode⟩ s ∧
    setImageWidth commands width s
      = commands.updateAttributes "imageResize" ⟨some width, none⟩ s ∧
    setImageAlign framework mode st = (true, st) ∧
    setImageWidth framework width st = (true, st) := by
  refine ⟨rfl, rfl, ?_, ?_⟩
  · simp only [setImageAlign, framework, frameworkUpdateAttributes, if_true]
    rw [patchFrom_of_no_selected_image _ _ _ _ 0 hsel]
  · simp only [setImageWidth, framework, frameworkUpdateAttributes, if_true]
    rw [patchFrom_of_no_selected_image _ _ _ _ 0 hsel]

/-- The selection on the text run before an image. -/
theorem image_commands_forward_witness :
    setImageAlign framework (some "left")
        ⟨[.text "hello", .image ⟨some "a.png", none, none, none, some "center"⟩], 0, 1⟩
      = framework.updateAttributes "imageResize" ⟨none, some (some "left")⟩
          ⟨[.text "hello", .image ⟨some "a.png", none, none, none, some "center"⟩], 0, 1⟩ ∧
    setImageWidth framework (some "300px")
        ⟨[.text "hello", .image ⟨some "a.png", none, none, none, some "center"⟩], 0, 1⟩
      = framework.updateAttributes "imageResize" ⟨some (some "300px"), none⟩
          ⟨[.text "hello", .image ⟨some "a.png", none, none, none, some "center"⟩], 0, 1⟩ ∧
    setImageAlign framework (some "left")
        ⟨[.text "hello", .image ⟨some "a.png", none, none, none, some "center"⟩], 0, 1⟩
      = (true,
          ⟨[.text "hello", .image ⟨some "a.png", none, none, none, some "center"⟩], 0, 1⟩) ∧
    setImageWidth framework (some "300px")
        ⟨[.text "hello", .image ⟨some "a.png", none, none, none, some "center"⟩], 0, 1⟩
      = (true,
          ⟨[.text "hello", .image ⟨some "a.png", none, none, none, some "center"⟩], 0, 1⟩) :=
  image_commands_forward EditorState framework
    ⟨[.text "hello", .image ⟨some "a.png", none, none, none, some "center"⟩], 0, 1⟩
    (some "left") (some "300px")
    ⟨[.text "hello", .image ⟨some "a.png", none, none, none, some "center"⟩], 0, 1⟩
    (by decide)

end ImageResize

namespace Toolbar

/-! ## Toggling a mark twice -/

theorem allSel_mapSel (p : TextRun → Bool) (f : TextRun → TextRun) (selFrom selTo : Nat)
    (l : List TextRun) :
    ∀ i, allSel p selFrom selTo i (mapSel f selFrom selTo i l)
      = allSel (fun r => p (f r)) selFrom selTo i l := by
  induction l with
  | nil => intro i; rfl
  | cons r rest ih =>
      intro i
      simp only [mapSel, allSel, ih (i + 1)]
      split <;> rfl

theorem mapSel_mapSel (g f : TextRun → TextRun) (selFrom selTo : Nat) (l : List TextRun) :
    ∀ i, mapSel g selFrom selTo i (mapSel f selFrom selTo i l)
      = mapSel (fun r => g (f r)) selFrom selTo i l := by
  induction l with
  | nil => intro i; rfl
  | cons r rest ih =>
      intro i
      simp only [mapSel, ih (i + 1)]
      split <;> rfl

theorem mapSel_eq_self (p : TextRun → Bool) (f : TextRun → TextRun)
    (hf : ∀ r, p r = true → f r = r) (selFrom selTo : Nat) (l : List TextRun) :
    ∀ i, allSel p selFrom selTo i l = true → mapSel f selFrom selTo i l = l := by
  induction l with
  | nil => intro i _; rfl
  | cons r rest ih =>
      intro i h
      simp only [allSel, Bool.and_eq_true] at h
      obtain ⟨h1, h2⟩ := h
      simp only [mapSel, ih (i + 1) h2]
      split
      · next hsel =>
          rw [if_pos hsel] at h1
          rw [hf r h1]
      · rfl

theorem put_false_put_true (r : TextRun) (m : BoolMark) (h : (!r.has m) = true) :
    (r.put m true).put m false = r := by
  cases m <;> cases r <;> simp_all [TextRun.put, TextRun.has]

theorem put_true_put_false (r : TextRun) (m : BoolMark) (h : r.has m = true) :
    (r.put m false).put m true = r := by
  cases m <;> cases r <;> simp_all [TextRun.put, TextRun.has]

theorem has_put (r : TextRun) (m : BoolMark) (b : Bool) : (r.put m b).has m = b := by
  cases m <;> rfl

theorem allSel_true (selFrom selTo : Nat) (l : List TextRun) :
    ∀ i, allSel (fun _ => true) selFrom selTo i l = true := by
  induction l with
  | nil => intro i; rfl
  | cons r rest ih =>
      intro i
      simp [allSel, ih (i + 1)]

/-- Toggling a mark twice on a selection in a uniform state for it gives back the
document and the selection. -/
theorem toggleMark_toggleMark (m : BoolMark) (st : DocState) (h : Uniform m st) :
    toggleMark m (toggleMark m st) = st := by
  obtain ⟨runs, selFrom, selTo⟩ := st
  simp only [Uniform] at h
  by_cases hact : allSel (fun r => r.has m) selFrom selTo 0 runs = true
  · have h1 : toggleMark m ⟨runs, selFrom, selTo⟩
        = ⟨mapSel (fun r => r.put m false) selFrom selTo 0 runs, selFrom, selTo⟩ := by
      simp [toggleMark, isActive, hact, unsetMark]
    rw [h1]
    by_cases hact' : isActive m
        ⟨mapSel (fun r => r.put m false) selFrom selTo 0 runs, selFrom, selTo⟩ = true
    · have hnone : allSel (fun _ => false) selFrom selTo 0 runs = true := by
        simp only [isActive, allSel_mapSel, has_put] at hact'
        exact hact'
      simp only [toggleMark, hact', if_true, unsetMark, mapSel_mapSel]
      rw [mapSel_eq_self (fun _ => false) _ (by intro r hr; cases hr) _ _ _ 0 hnone]
    · simp only [toggleMark, hact', setMark, mapSel_mapSel]
      rw [mapSel_eq_self (fun r => r.has m) _ (fun r hr => put_true_put_false r m hr)
        _ _ _ 0 hact]
      rfl
  · have hlack : allSel (fun r => !r.has m) selFrom selTo 0 runs = true := by
      rcases h with h | h
      · exact absurd h hact
      · exact h
    have h1 : toggleMark m ⟨runs, selFrom, selTo⟩
        = ⟨mapSel (fun r => r.put m true) selFrom selTo 0 runs, selFrom, selTo⟩ := by
      simp [toggleMark, isActive, hact, setMark]
    rw [h1]
    have hact' : isActive m
        ⟨mapSel (fun r => r.put m true) selFrom selTo 0 runs, selFrom, selTo⟩ = true := by
      simp only [isActive, allSel_mapSel, has_put]
      exact allSel_true selFrom selTo runs 0
    simp only [toggleMark, hact', if_true, unsetMark, mapSel_mapSel]
    rw [mapSel_eq_self (fun r => !r.has m) _ (fun r hr => put_false_put_true r m hr)
      _ _ _ 0 hlack]

end Toolbar

namespace Toolbar

/-- On a selection that mixes bold and plain text the second toggle does not restore
the first run: uniformity is needed. -/
theorem toggleBold_twice_on_mixed_selection :
    toggleBold (toggleBold
        ⟨[⟨"a", true, false, false, false, []⟩, ⟨"b", false, false, false, false, []⟩], 0, 2⟩)
      = ⟨[⟨"a", false, false, false, false, []⟩, ⟨"b", false, false, false, false, []⟩],
          0, 2⟩ := by
  decide

/-- C18: for each of the four toggles of the toolbar and every selection whose state
for that mark is uniform (every selected run carries the mark, or none does),
executing the toggle twice on the unchanged selection restores the document, and
with it the mark set of every run. -/
theorem toggle_twice_restores (st : DocState) :
    (Uniform .bold st → toggleBold (toggleBold st) = st) ∧
    (Uniform .italic st → toggleItalic (toggleItalic st) = st) ∧
    (Uniform .underline st → toggleUnderline (toggleUnderline st) = st) ∧
    (Uniform .strike st → toggleStrike (toggleStrike st) = st) :=
  ⟨toggleMark_toggleMark .bold st, toggleMark_toggleMark .italic st,
    toggleMark_toggleMark .underline st, toggleMark_toggleMark .strike st⟩

/-- Two selected runs, both bold and underlined, neither italic nor struck, next to
an unselected italic run. -/
theorem toggle_twice_restores_witness :
    toggleBold (toggleBold
        ⟨[⟨"a", true, false, true, false, []⟩, ⟨"b", true, false, true, false, [("color", "#fff")]⟩,
          ⟨"c", false, true, false, false, []⟩], 0, 2⟩)
      = ⟨[⟨"a", true, false, true, false, []⟩, ⟨"b", true, false, true, false, [("color", "#fff")]⟩,
          ⟨"c", false, true, false, false, []⟩], 0, 2⟩ ∧
    toggleItalic (toggleItalic
        ⟨[⟨"a", true, false, true, false, []⟩, ⟨"b", true, false, true, false, [("color", "#fff")]⟩,
          ⟨"c", false, true, false, false, []⟩], 0, 2⟩)
      = ⟨[⟨"a", true, false, true, false, []⟩, ⟨"b", true, false, true, false, [("color", "#fff")]⟩,
          ⟨"c", false, true, false, false, []⟩], 0, 2⟩ ∧
    toggleUnderline (toggleUnderline
        ⟨[⟨"a", true, false, true, false, []⟩, ⟨"b", true, false, true, false, [("color", "#fff")]⟩,
          ⟨"c", false, true, false, false, []⟩], 0, 2⟩)
      = ⟨[⟨"a", true, false, true, false, []⟩, ⟨"b", true, false, true, false, [("color", "#fff")]⟩,
          ⟨"c", false, true, false, false, []⟩], 0, 2⟩ ∧
    toggleStrike (toggleStrike
        ⟨[⟨"a", true, false, true, false, []⟩, ⟨"b", true, false, true, false, [("color", "#fff")]⟩,
          ⟨"c", false, true, false, false, []⟩], 0, 2⟩)
      = ⟨[⟨"a", true, false, true, false, []⟩, ⟨"b", true, false, true, false, [("color", "#fff")]⟩,
          ⟨"c", false, true, false, false, []⟩], 0, 2⟩ :=
  ⟨(toggle_twice_restores _).1 (Or.inl (by decide)),
    (toggle_twice_restores _).2.1 (Or.inr (by decide)),
    (toggle_twice_restores _).2.2.1 (Or.inl (by decide)),
    (toggle_twice_restores _).2.2.2 (Or.inr (by decide))⟩

end Toolbar

namespace ImageResizeHandles

/-! ## Rounding and the last pointer-move -/

theorem mathRound_nearest (q : ℚ) (k : ℤ) :
    |(mathRound q : ℚ) - q| ≤ |(k : ℚ) - q| := by
  have h1 := mathRound_le q
  have h2 := lt_mathRound q
  have hw := abs_mathRound_sub_le q
  rcases lt_trichotomy k (mathRound q) with hk | hk | hk
  · have hk' : (k : ℚ) ≤ (mathRound q : ℚ) - 1 := by
      have : k ≤ mathRound q - 1 := by omega
      exact_mod_cast this
    have : (1 : ℚ) / 2 ≤ |(k : ℚ) - q| := by
      rw [abs_sub_comm]
      exact le_trans (by linarith) (le_abs_self _)
    linarith
  · rw [hk]
  · have hk' : (mathRound q : ℚ) + 1 ≤ (k : ℚ) := by
      have : mathRound q + 1 ≤ k := by omega
      exact_mod_cast this
    have : (1 : ℚ) / 2 ≤ |(k : ℚ) - q| := le_trans (by linarith) (le_abs_self _)
    linarith

/-- C19: for every handle, drag-start record and pointer-move event, the width that
`handleMouseMove` records as `finalWidth`, and that the animation frame applies to
the image, is an integer: the clamped width `max (unclamped width) 50` rounded to the
nearest integer (no integer is closer, the distance is at most one half).  The value
written to the image style and the value committed by `handleMouseUp` are the decimal
digits of that integer followed by `px`. -/
theorem finalWidth_is_rounded_integer (e : MouseEvent) (start : DragStart) (c : Session)
    (s : State) (ed : Editor) :
    ∃ w : ℤ,
      w = mathRound (max (unclampedWidth c.activeHandle start e) 50) ∧
      (handleMouseMove e start c).finalWidth = some w ∧
      |(w : ℚ) - max (unclampedWidth c.activeHandle start e) 50| ≤ 1 / 2 ∧
      (∀ k : ℤ, |(w : ℚ) - max (unclampedWidth c.activeHandle start e) 50|
        ≤ |(k : ℚ) - max (unclampedWidth c.activeHandle start e) 50|) ∧
      (animationFrame s (handleMouseMove e start c)).imgStyleWidth =
        (if c.imgElement then some (toString w ++ "px") else s.imgStyleWidth) ∧
      (handleMouseUp ed s (handleMouseMove e start c)).setImageWidthCalls =
        s.setImageWidthCalls ++
          (if c.imgElement && ed.usable then [toString w ++ "px"] else []) := by
  refine ⟨mathRound (max (unclampedWidth c.activeHandle start e) 50), rfl, ?_,
    abs_mathRound_sub_le _, mathRound_nearest _, ?_, ?_⟩
  · simp [handleMouseMove, roundedSize, newSize_fst]
  · simp [handleMouseMove, roundedSize, newSize_fst, animationFrame, px]
  · have hne := roundedSize_fst_ne_zero c.activeHandle start e
    simp only [roundedSize, newSize_fst] at hne
    simp only [handleMouseUp, handleMouseMove, roundedSize, newSize_fst, hne, Bool.true_and,
      px]
    split <;> simp

/-- C20: there is a function of the active handle, the drag-start `x`, the drag-start
width and the `clientX` of the last pointer-move such that, for every drag with at
least one pointer-move, the one width committed at pointer-up is its value; earlier
moves, the `clientY` of any event and the drag-start `y` and height play no part. -/
theorem committed_width_of_last_move :
    ∃ f : Handle → ℚ → ℚ → ℚ → ℤ,
      ∀ (s : State) (handle : Handle) (e : MouseEvent) (targetCursor : String)
        (ed ed' : Editor) (moves : List Event) (eLast : MouseEvent),
        s.showHandles = true → s.isDestroyed = false → s.isDragging = false →
        ed.setupPasses = true → ed.resolvesImage = true → ed'.usable = true →
        (∀ ev ∈ moves, ev.duringDrag = true) → lastMove moves = some eLast →
        (run s (.mouseDown handle e targetCursor ed :: moves
            ++ [.mouseUp ed'])).setImageWidthCalls
          = s.setImageWidthCalls ++
              [px (f handle e.clientX s.imagePosition.width eLast.clientX)] := by
  refine ⟨fun handle startX startWidth lastX =>
    mathRound (max (unclampedWidth (some handle) ⟨startX, 0, startWidth, .nan⟩ ⟨lastX, 0⟩) 50),
    ?_⟩
  intro s handle e targetCursor ed ed' moves eLast hshow hmounted hidle hed himg hed'
    hmoves hlast
  obtain ⟨c, hc, hi, hf, hcalls, hdrag⟩ :=
    run_drag s handle e targetCursor ed moves hshow hmounted hidle hed hmoves
  rw [hlast] at hf
  rw [run_snoc, step_mouseUp_dragging _ c ed' hc hdrag]
  have hw : (roundedSize (some handle)
      ⟨e.clientX, e.clientY, s.imagePosition.width, s.imagePosition.height⟩ eLast).1
      = mathRound (max (unclampedWidth (some handle) ⟨e.clientX, 0, s.imagePosition.width, .nan⟩
          ⟨eLast.clientX, 0⟩) 50) := by
    simp only [roundedSize, newSize_fst]
    cases handle <;> rfl
  simp only [hw] at hf
  have hne := roundedSize_fst_ne_zero (some handle)
    ⟨e.clientX, e.clientY, s.imagePosition.width, s.imagePosition.height⟩ eLast
  rw [hw] at hne
  simp [handleMouseUp, hf, hi, himg, hed', hcalls, hne]

/-- Two drags of `se` from `x = 0` on `selectedState` that agree only on the
`clientX` of their last pointer-move commit the same width. -/
theorem committed_width_of_last_move_witness :
    (run selectedState (.mouseDown .se ⟨0, 0⟩ "" imageEditor ::
        [Event.mouseMove ⟨10, 0⟩, .mouseMove ⟨100, 5⟩] ++ [.mouseUp imageEditor])).setImageWidthCalls
      = (run selectedState (.mouseDown .se ⟨0, 40⟩ "se-resize" imageEditor ::
          [Event.mouseMove ⟨-30, 7⟩, .frame, .mouseMove ⟨250, 9⟩, .mouseMove ⟨100, -80⟩]
          ++ [.mouseUp textEditor])).setImageWidthCalls := by
  obtain ⟨f, hf⟩ := committed_width_of_last_move
  rw [hf selectedState .se ⟨0, 0⟩ "" imageEditor imageEditor
      [.mouseMove ⟨10, 0⟩, .mouseMove ⟨100, 5⟩] ⟨100, 5⟩
      selectedState_props.1 selectedState_props.2.1 selectedState_props.2.2.1
      imageEditor_props.1 imageEditor_props.2.1 imageEditor_props.2.2
      (by simp [Event.duringDrag]) (by simp [lastMove]),
    hf selectedState .se ⟨0, 40⟩ "se-resize" imageEditor textEditor
      [.mouseMove ⟨-30, 7⟩, .frame, .mouseMove ⟨250, 9⟩, .mouseMove ⟨100, -80⟩] ⟨100, -80⟩
      selectedState_props.1 selectedState_props.2.1 selectedState_props.2.2.1
      imageEditor_props.1 imageEditor_props.2.1
      (by simp [textEditor, imageEditor, Editor.usable])
      (by simp [Event.duringDrag]) (by simp [lastMove])]

end ImageResizeHandles

namespace ImageResize

/-! ## Instances on sample nodes -/

/-- An `img` with `data-align="right"` and `setImageAlign('left')`. -/
theorem dataAlign_passes_through_witness :
    IsAlignMode (parseDataAlign ⟨[("src", "a.png"), ("data-align", "right")], ""⟩) ∧
    IsAlignMode (parseDataAlign ⟨[("src", "a.png")], ""⟩) ∧
    IsAlignMode
      (applyPatch ⟨none, some (some "left")⟩
        ⟨some "a.png", none, none, none, some "center"⟩).dataAlign :=
  ⟨(dataAlign_passes_through ⟨[("src", "a.png"), ("data-align", "right")], ""⟩ none
      EditorState framework ⟨none, none⟩ ⟨none, none, none, none, none⟩).2.1
      (Or.inr (Or.inr (Or.inr (Or.inr (Or.inl rfl))))),
    (dataAlign_passes_through ⟨[("src", "a.png")], ""⟩ none
      EditorState framework ⟨none, none⟩ ⟨none, none, none, none, none⟩).2.1 (Or.inl rfl),
    (dataAlign_passes_through ⟨[], ""⟩ (some "left") EditorState framework ⟨none, none⟩
      ⟨some "a.png", none, none, none, some "center"⟩).2.2.2.2 (Or.inl rfl)⟩

/-- A node of width `300px`, as the resize drag commits it, and a node without
width. -/
theorem width_rendered_verbatim_witness :
    ((renderHTML ⟨some "a.png", none, none, some "300px", some "center"⟩).lookup "width"
        = some (toString 300 ++ "px") ∧
      (renderHTML ⟨some "a.png", none, none, some "300px", some "center"⟩).lookup "style"
        = some ("width: " ++ toString 300 ++ "px; height: auto;")) ∧
    ((renderHTML ⟨some "a.png", none, none, none, some "center"⟩).lookup "width" = none ∧
      (renderHTML ⟨some "a.png", none, none, none, some "center"⟩).lookup "style" = none) :=
  ⟨(width_rendered_verbatim ⟨some "a.png", none, none, some "300px", some "center"⟩).2.1
      300 (by decide),
    (width_rendered_verbatim ⟨some "a.png", none, none, none, some "center"⟩).2.2 rfl⟩

end ImageResize

namespace ApplicantCard

/-! ## Answers mapped to their questions -/

theorem noAnswer_eq_not_provided (a : JS.Answer) : JS.noAnswer a = !provided a := by
  cases a with
  | nullish => rfl
  | bool b => cases b <;> rfl
  | num n => simp [JS.noAnswer, provided, JS.Answer.truthy]
  | str s => simp [JS.noAnswer, provided, JS.Answer.truthy]
  | arr items => cases items <;> simp [JS.noAnswer, provided, JS.Answer.truthy]

theorem mapEntry_eq (qs : List Question) (e : String × JS.Answer) :
    mapEntry qs e =
      (match qs.find? (fun q => q.id == .str e.1) with
       | some q => if provided e.2 then some ⟨e.1, q.label, e.2, q.type⟩ else none
       | none => none) := by
  unfold mapEntry
  cases qs.find? (fun q => q.id == .str e.1) with
  | none => rfl
  | some q =>
      simp only [noAnswer_eq_not_provided]
      cases provided e.2 <;> rfl

theorem any_eq_find_isSome (qs : List Question) (k : String) :
    qs.any (fun q => q.id == .str k) = (qs.find? (fun q => q.id == .str k)).isSome := by
  induction qs with
  | nil => rfl
  | cons q rest ih =>
      simp only [List.any_cons, List.find?_cons]
      cases h : (q.id == QuestionId.str k) <;> simp [ih]

/-- C21: `mapAnswersToQuestions` returns the empty array when `answers` or `questions`
is missing.  Otherwise the records it returns are, in the order of the entries of
`answers`, one for each entry whose key is the `id` of some question and whose answer
is provided, with that key and that answer; the label and the type of each record are
those of the first question with that `id`.  Entries without such a question or
without an answer leave no record. -/
theorem mapAnswersToQuestions_records (entries : List (String × JS.Answer))
    (qs : List Question) :
    (∀ questions, mapAnswersToQuestions none questions = []) ∧
    (∀ answers, mapAnswersToQuestions answers none = []) ∧
    (mapAnswersToQuestions (some entries) (some qs)).map (fun r => (r.questionId, r.answer))
      = entries.filter (fun e => qs.any (fun q => q.id == .str e.1) && provided e.2) ∧
    (∀ r ∈ mapAnswersToQuestions (some entries) (some qs),
      ∃ q, qs.find? (fun q => q.id == .str r.questionId) = some q ∧
        r.label = q.label ∧ r.type = q.type) := by
  refine ⟨fun _ => rfl, ?_, ?_, ?_⟩
  · intro answers
    cases answers <;> rfl
  · simp only [mapAnswersToQuestions, List.filterMap_map]
    induction entries with
    | nil => rfl
    | cons e rest ih =>
        simp only [List.filterMap_cons, Function.comp, id, List.filter_cons,
          any_eq_find_isSome, mapEntry_eq]
        cases hq : qs.find? (fun q => q.id == .str e.1) with
        | none => simpa [any_eq_find_isSome, mapEntry_eq, Function.comp] using ih
        | some q =>
            cases hp : provided e.2
            · simpa [any_eq_find_isSome, mapEntry_eq, Function.comp] using ih
            · simpa [any_eq_find_isSome, mapEntry_eq, Function.comp] using ih
  · intro r hr
    simp only [mapAnswersToQuestions, List.filterMap_map, List.mem_filterMap,
      Function.comp, id] at hr
    obtain ⟨e, _, he⟩ := hr
    rw [mapEntry_eq] at he
    cases hq : qs.find? (fun q => q.id == .str e.1) with
    | none => simp [hq] at he
    | some q =>
        rw [hq] at he
        cases hp : provided e.2
        · simp [hp] at he
        · simp only [hp, if_true, Option.some.injEq] at he
          subst he
          exact ⟨q, hq, rfl, rfl⟩

/-- Three answers for two questions: one answered, one of white space only, one for
a question that the form no longer has. -/
theorem mapAnswersToQuestions_records_witness :
    mapAnswersToQuestions
        (some [("q1", .str "Mage"), ("q2", .str "  "), ("q9", .str "old")])
        (some [⟨.str "q1", "Class", "text"⟩, ⟨.str "q2", "Notes", "text"⟩])
      = [⟨"q1", "Class", .str "Mage", "text"⟩] ∧
    ∃ q, [(⟨.str "q1", "Class", "text"⟩ : Question), ⟨.str "q2", "Notes", "text"⟩].find?
          (fun q => q.id == .str "q1") = some q ∧
        "Class" = q.label ∧ "text" = q.type :=
  ⟨by decide,
    (mapAnswersToQuestions_records
      [("q1", .str "Mage"), ("q2", .str "  "), ("q9", .str "old")]
      [⟨.str "q1", "Class", "text"⟩, ⟨.str "q2", "Notes", "text"⟩]).2.2.2
      ⟨"q1", "Class", .str "Mage", "text"⟩ (by decide)⟩

end ApplicantCard

namespace Auth

/-! ## Access to a team and the protected route -/

/-- C22: `canAccessTeam(user, teamId)` is true exactly when the user is present and
its rank is `GUILD_MASTER` or `COUNCIL`, whatever the team, or its rank is `TEAM_LEAD`
and `user.team_id === teamId`; a missing user and every other rank give false. -/
theorem canAccessTeam_iff (user : Option User) (teamId : Id) :
    canAccessTeam user teamId = true ↔
      ∃ u, user = some u ∧
        (u.rank = some "GUILD_MASTER" ∨ u.rank = some "COUNCIL" ∨
          (u.rank = some "TEAM_LEAD" ∧ u.team_id = teamId)) := by
  cases user with
  | none => simp [canAccessTeam]
  | some u =>
      simp only [canAccessTeam, Option.some.injEq, exists_eq_left']
      by_cases h1 : u.rank = some "GUILD_MASTER"
      · simp [h1]
      · by_cases h2 : u.rank = some "COUNCIL"
        · simp [h2]
        · by_cases h3 : u.rank = some "TEAM_LEAD"
          · simp [h3]
          · simp [h1, h2, h3]

theorem route_cases (a t i : Bool) (P : Prop) (hinc : i = true ↔ P) :
    ((if (!a) = true then Rendered.navigate "/login"
        else if t = true then
          (if (!i) = true then Rendered.navigate "/dashboard" else Rendered.children)
        else Rendered.children) = Rendered.children ↔ a = true ∧ (t = false ∨ P)) ∧
    ((if (!a) = true then Rendered.navigate "/login"
        else if t = true then
          (if (!i) = true then Rendered.navigate "/dashboard" else Rendered.children)
        else Rendered.children) = Rendered.navigate "/login" ↔ a = false) ∧
    ((if (!a) = true then Rendered.navigate "/login"
        else if t = true then
          (if (!i) = true then Rendered.navigate "/dashboard" else Rendered.children)
        else Rendered.children) = Rendered.navigate "/dashboard" ↔
      a = true ∧ t = true ∧ ¬ P) := by
  cases i with
  | true =>
      have hP : P := hinc.mp rfl
      cases a <;> cases t <;> simp [hP]
  | false =>
      have hP : ¬ P := fun h => by simpa using hinc.mpr h
      cases a <;> cases t <;> simp [hP]

/-- C23: `ProtectedRoute` renders its children exactly when a token is stored
(`isAuthenticated()`) and either no `requiredRank` is specified (the property is
missing, or the empty string, which the test `if (requiredRank)` treats alike) or the
rank of the stored user is one of the allowed ranks, a single string standing for the
list of that string; it navigates to `/login` exactly when not authenticated, and to
`/dashboard` exactly when authenticated with a rank that is not allowed. -/
theorem ProtectedRoute_cases (storage : Storage) (requiredRank : RequiredRank) :
    (ProtectedRoute storage requiredRank = .children ↔
      isAuthenticated storage = true ∧
        (requiredRank.truthy = false ∨
          ∃ u rank, storage.user = some u ∧ u.rank = some rank ∧
            rank ∈ allowedRanks requiredRank)) ∧
    (ProtectedRoute storage requiredRank = .navigate "/login" ↔
      isAuthenticated storage = false) ∧
    (ProtectedRoute storage requiredRank = .navigate "/dashboard" ↔
      isAuthenticated storage = true ∧ requiredRank.truthy = true ∧
        ¬ ∃ u rank, storage.user = some u ∧ u.rank = some rank ∧
            rank ∈ allowedRanks requiredRank) ∧
    allowedRanks (.single "GUILD_MASTER") = ["GUILD_MASTER"] ∧
    (∀ rank, allowedRanks (.single rank) = [rank]) ∧
    (∀ ranks, allowedRanks (.many ranks) = ranks) := by
  have hinc : includesRank (allowedRanks requiredRank) (getCurrentUser storage) = true ↔
      ∃ u rank, storage.user = some u ∧ u.rank = some rank ∧
        rank ∈ allowedRanks requiredRank := by
    unfold includesRank getCurrentUser
    cases storage.user with
    | none => simp
    | some u =>
        cases hr : u.rank with
        | none => simp [hr]
        | some rank => simp [hr]
  obtain ⟨h1, h2, h3⟩ := route_cases (isAuthenticated storage) requiredRank.truthy
    (includesRank (allowedRanks requiredRank) (getCurrentUser storage)) _ hinc
  exact ⟨h1, h2, h3, rfl, fun _ => rfl, fun _ => rfl⟩

/-- A council member on a route for guild masters and council, a member on the same
route, and a visitor without token. -/
theorem ProtectedRoute_cases_witness :
    ProtectedRoute ⟨some "jwt", some ⟨some "COUNCIL", .num 2⟩⟩
        (.many ["GUILD_MASTER", "COUNCIL"]) = .children ∧
    ProtectedRoute ⟨some "jwt", some ⟨some "MEMBER", .num 2⟩⟩
        (.many ["GUILD_MASTER", "COUNCIL"]) = .navigate "/dashboard" ∧
    ProtectedRoute ⟨none, none⟩ (.single "GUILD_MASTER") = .navigate "/login" :=
  ⟨(ProtectedRoute_cases ⟨some "jwt", some ⟨some "COUNCIL", .num 2⟩⟩
      (.many ["GUILD_MASTER", "COUNCIL"])).1.mpr
      ⟨by decide, Or.inr ⟨⟨some "COUNCIL", .num 2⟩, "COUNCIL", rfl, rfl, by decide⟩⟩,
    (ProtectedRoute_cases ⟨some "jwt", some ⟨some "MEMBER", .num 2⟩⟩
      (.many ["GUILD_MASTER", "COUNCIL"])).2.2.1.mpr
      ⟨by decide, by decide, by
        rintro ⟨u, rank, hu, hr, hm⟩
        cases hu
        cases hr
        revert hm
        decide⟩,
    (ProtectedRoute_cases ⟨none, none⟩ (.single "GUILD_MASTER")).2.1.mpr (by decide)⟩

/-- A team lead on the team it leads. -/
theorem canAccessTeam_iff_witness :
    canAccessTeam (some ⟨some "TEAM_LEAD", .num 3⟩) (.num 3) = true :=
  (canAccessTeam_iff (some ⟨some "TEAM_LEAD", .num 3⟩) (.num 3)).mpr
    ⟨⟨some "TEAM_LEAD", .num 3⟩, rfl, Or.inr (Or.inr ⟨rfl, rfl⟩)⟩

end Auth

namespace TransactionsSlice

/-! ## The fulfilled reducer applied twice -/

/-- The items after the reducer, by recursion on the array: the first item with the
id of the payload is replaced, and the payload is appended when there is none. -/
theorem items_fulfilled (payload : Transaction) (items : List Transaction) (loading : Bool)
    (error : Option String) :
    (processTransactionFulfilled ⟨items, loading, error⟩ payload).items =
      (match items with
       | [] => [payload]
       | x :: xs =>
           if x.id = payload.id then payload :: xs
           else x :: (processTransactionFulfilled ⟨xs, loading, error⟩ payload).items) := by
  cases items with
  | nil => rfl
  | cons x xs =>
      by_cases hx : x.id = payload.id
      · simp [processTransactionFulfilled, findIndex, hx]
      · simp only [processTransactionFulfilled, findIndex, beq_iff_eq, hx, if_false]
        cases findIndex (fun item => item.id == payload.id) xs <;> simp

theorem items_fulfilled_twice (payload : Transaction) (loading loading' : Bool)
    (error error' : Option String) (items : List Transaction) :
    (processTransactionFulfilled
        ⟨(processTransactionFulfilled ⟨items, loading, error⟩ payload).items, loading', error'⟩
        payload).items
      = (processTransactionFulfilled ⟨items, loading, error⟩ payload).items := by
  induction items with
  | nil =>
      rw [items_fulfilled payload [] loading error]
      simp [processTransactionFulfilled, findIndex]
  | cons x xs ih =>
      rw [items_fulfilled payload (x :: xs) loading error]
      by_cases hx : x.id = payload.id
      · simp only [hx, if_true]
        rw [items_fulfilled]
        simp
      · simp only [hx, if_false]
        rw [items_fulfilled]
        simp only [hx, if_false]
        rw [ih]

theorem ids_fulfilled (payload : Transaction) (loading : Bool) (error : Option String)
    (items : List Transaction) :
    (payload.id ∈ items.map Transaction.id →
      ((processTransactionFulfilled ⟨items, loading, error⟩ payload).items).map Transaction.id
        = items.map Transaction.id) ∧
    (payload.id ∉ items.map Transaction.id →
      ((processTransactionFulfilled ⟨items, loading, error⟩ payload).items).map Transaction.id
        = items.map Transaction.id ++ [payload.id]) := by
  induction items with
  | nil =>
      constructor
      · intro h; simp at h
      · intro _; rfl
  | cons x xs ih =>
      rw [items_fulfilled payload (x :: xs) loading error]
      by_cases hx : x.id = payload.id
      · simp [hx]
      · have hx' : ¬ payload.id = x.id := fun h => hx h.symm
        simp only [hx, if_false, List.map_cons, List.mem_cons, hx', false_or, List.cons_append,
          List.cons.injEq, true_and, not_or, not_false_eq_true]
        exact ih

/-- C24: the reducer of `processTransaction.fulfilled` is idempotent: for every state
and payload, applying it twice with the same payload gives the state that applying it
once gives.  A payload whose id is already in `items` replaces the first item with
that id and the ids stay as they were; otherwise it is appended; so pairwise distinct
ids stay pairwise distinct. -/
theorem fulfilled_idempotent (state : State) (payload : Transaction) :
    processTransactionFulfilled (processTransactionFulfilled state payload) payload
      = processTransactionFulfilled state payload ∧
    (payload.id ∈ state.items.map Transaction.id →
      (processTransactionFulfilled state payload).items.map Transaction.id
        = state.items.map Transaction.id ∧
      (processTransactionFulfilled state payload).items.length = state.items.length) ∧
    payload ∈ (processTransactionFulfilled state payload).items ∧
    ((state.items.map Transaction.id).Nodup →
      ((processTransactionFulfilled state payload).items.map Transaction.id).Nodup) := by
  obtain ⟨items, loading, error⟩ := state
  have hids := ids_fulfilled payload loading error items
  refine ⟨?_, ?_, ?_, ?_⟩
  · have hitems := items_fulfilled_twice payload loading false error error items
    have hfields : ∀ (st : State),
        (processTransactionFulfilled st payload).loading = false ∧
        (processTransactionFulfilled st payload).error = st.error := by
      intro st
      unfold processTransactionFulfilled
      cases findIndex (fun item => item.id == payload.id) st.items <;> exact ⟨rfl, rfl⟩
    have e1 := hfields ⟨items, loading, error⟩
    have e2 := hfields (processTransactionFulfilled ⟨items, loading, error⟩ payload)
    have hshape : ∀ (a b : State), a.items = b.items → a.loading = b.loading →
        a.error = b.error → a = b := by
      intro a b h1 h2 h3
      cases a; cases b
      simp only at h1 h2 h3
      subst h1 h2 h3
      rfl
    apply hshape
    · have := items_fulfilled_twice payload loading
        (processTransactionFulfilled ⟨items, loading, error⟩ payload).loading error
        (processTransactionFulfilled ⟨items, loading, error⟩ payload).error items
      exact this
    · rw [e2.1, e1.1]
    · rw [e2.2]
  · intro hmem
    refine ⟨hids.1 hmem, ?_⟩
    have := congrArg List.length (hids.1 hmem)
    simpa using this
  · induction items with
    | nil => simp [processTransactionFulfilled, findIndex]
    | cons x xs ih =>
        rw [items_fulfilled payload (x :: xs) loading error]
        by_cases hx : x.id = payload.id
        · simp [hx]
        · simp only [hx, if_false, List.mem_cons]
          exact Or.inr (ih (ids_fulfilled payload loading error xs))
  · intro hnd
    by_cases hmem : payload.id ∈ items.map Transaction.id
    · rw [hids.1 hmem]
      exact hnd
    · rw [hids.2 hmem]
      exact List.Nodup.append hnd (List.nodup_singleton _)
        (by
          intro a ha hb
          simp only [List.mem_singleton] at hb
          subst hb
          exact hmem ha)

/-- A state with two transactions and a payload that carries the id of the first. -/
theorem fulfilled_idempotent_witness :
    (processTransactionFulfilled
        ⟨[⟨"t1", [("status", "pending")]⟩, ⟨"t2", [("status", "completed")]⟩], true, none⟩
        ⟨"t1", [("status", "completed")]⟩)
      = ⟨[⟨"t1", [("status", "completed")]⟩, ⟨"t2", [("status", "completed")]⟩], false, none⟩ ∧
    ((processTransactionFulfilled
        ⟨[⟨"t1", [("status", "pending")]⟩, ⟨"t2", [("status", "completed")]⟩], true, none⟩
        ⟨"t1", [("status", "completed")]⟩).items.map Transaction.id
        = [⟨"t1", [("status", "pending")]⟩, (⟨"t2", [("status", "completed")]⟩ :
            Transaction)].map Transaction.id ∧
      (processTransactionFulfilled
        ⟨[⟨"t1", [("status", "pending")]⟩, ⟨"t2", [("status", "completed")]⟩], true, none⟩
        ⟨"t1", [("status", "completed")]⟩).items.length = 2) ∧
    ((processTransactionFulfilled
        ⟨[⟨"t1", [("status", "pending")]⟩, ⟨"t2", [("status", "completed")]⟩], true, none⟩
        ⟨"t1", [("status", "completed")]⟩).items.map Transaction.id).Nodup :=
  ⟨by decide,
    (fulfilled_idempotent
      ⟨[⟨"t1", [("status", "pending")]⟩, ⟨"t2", [("status", "completed")]⟩], true, none⟩
      ⟨"t1", [("status", "completed")]⟩).2.1 (by decide),
    (fulfilled_idempotent
      ⟨[⟨"t1", [("status", "pending")]⟩, ⟨"t2", [("status", "completed")]⟩], true, none⟩
      ⟨"t1", [("status", "completed")]⟩).2.2.2 (by decide)⟩

end TransactionsSlice

namespace ApplicationForm

/-! ## Validation of the identity fields -/

theorem setError_ne_nil (newErrors : List (String × String)) (key message : String) :
    setError newErrors key message ≠ [] := by
  unfold setError
  split
  · next h =>
      cases newErrors with
      | nil => simp at h
      | cons e rest => simp
  · simp

theorem missingOrBlank_of_not_hasLogsUrl (identity : Identity)
    (h : hasLogsUrl identity = false) : missingOrBlank identity.warcraftLogsUrl = true := by
  unfold hasLogsUrl at h
  unfold missingOrBlank
  cases hv : identity.warcraftLogsUrl with
  | none => simp [JS.truthy]
  | some s =>
      rw [hv] at h
      by_cases hs : s = ""
      · simp [JS.truthy, hs]
      · have hne : (s != "") = true := by simpa using hs
        rw [JS.truthy, hne] at h
        have ht : JS.trimIsEmpty s = true := by simpa using h
        simp [ht]

/-- No error is recorded for the system fields exactly when `hasLogsUrl` or
`hasManualInfo` holds. -/
theorem identityErrors_eq_nil_iff (identity : Identity) :
    identityErrors identity = [] ↔
      hasLogsUrl identity = true ∨ hasManualInfo identity = true := by
  unfold identityErrors
  cases hl : hasLogsUrl identity with
  | true => simp
  | false =>
      cases hm : hasManualInfo identity with
      | true => simp
      | false =>
          simp only [Bool.not_false, Bool.and_self, if_true,
            missingOrBlank_of_not_hasLogsUrl identity hl, Bool.false_eq_true, or_self,
            iff_false]
          repeat' split
          all_goals exact setError_ne_nil _ _ _

/-- C25 fails on the code: with no Warcraft Logs URL, the region `US`, a realm of
three spaces and the character name `Bob`, `hasManualInfo` is truthy, so `validate`
records no error and returns true, although the realm is blank.  The same realm is
reported as missing once the region is not chosen, and a character name of white
space only passes in the same way. -/
theorem blank_realm_passes_validation :
    validate ⟨none, some "US", some "   ", some "Bob"⟩ [] [] = ([], true) ∧
    JS.trimIsEmpty "   " = true ∧
    hasLogsUrl ⟨none, some "US", some "   ", some "Bob"⟩ = false ∧
    validate ⟨none, none, some "   ", some "Bob"⟩ [] [] =
      ([("warcraftLogsUrl", "Required if Region/Realm/Character Name not provided"),
        ("region", "Required if Warcraft Logs URL not provided"),
        ("realm", "Required if Warcraft Logs URL not provided")], false) ∧
    validate ⟨some "", some "EU", some "Draenor", some " "⟩ [] [] = ([], true) := by
  refine ⟨by decide, by decide, by decide, by decide, by decide⟩

end ApplicationForm

namespace ImageToolbar

/-! ## Horizontal position of the toolbar -/

/-- C26, as stated, fails: in an editor 400 pixels wide the toolbar of 460 pixels
cannot keep both paddings; the second adjustment wins and `left` is `-70`. -/
theorem toolbar_left_in_narrow_editor :
    toolbarLeft ⟨0, 100, 200, 100⟩ ⟨0, 0, 400, 600⟩ = -70 ∧
    ¬ (10 ≤ toolbarLeft ⟨0, 100, 200, 100⟩ ⟨0, 0, 400, 600⟩) := by
  have h : toolbarLeft ⟨0, 100, 200, 100⟩ ⟨0, 0, 400, 600⟩ = -70 := by
    simp only [toolbarLeft]
    norm_num
  exact ⟨h, by rw [h]; norm_num⟩

/-- C26, amended: for every image rectangle and editor rectangle the position keeps
the right padding, `left + 460 <= editorWidth - 10`; it keeps the left padding,
`left >= 10`, exactly when the editor is at least 480 pixels wide, and in a narrower
editor `left` is `editorWidth - 470`. -/
theorem toolbar_left_bounds (rect editorRect : ImageResizeHandles.Rect) :
    toolbarLeft rect editorRect + 460 ≤ editorRect.width - 10 ∧
    (10 ≤ toolbarLeft rect editorRect ↔ 480 ≤ editorRect.width) ∧
    (editorRect.width < 480 → toolbarLeft rect editorRect = editorRect.width - 470) := by
  simp only [toolbarLeft]
  refine ⟨?_, ?_, ?_⟩
  · split_ifs <;> linarith
  · constructor
    · intro h
      split_ifs at h <;> linarith
    · intro h
      split_ifs <;> linarith
  · intro h
    split_ifs <;> linarith

/-- An image in the middle of an editor 800 pixels wide, and one in an editor 400
pixels wide. -/
theorem toolbar_left_bounds_witness :
    10 ≤ toolbarLeft ⟨30, 300, 200, 100⟩ ⟨20, 20, 800, 600⟩ ∧
    toolbarLeft ⟨0, 100, 200, 100⟩ ⟨0, 0, 400, 600⟩ = 400 - 470 :=
  ⟨(toolbar_left_bounds ⟨30, 300, 200, 100⟩ ⟨20, 20, 800, 600⟩).2.1.mpr (by norm_num),
    (toolbar_left_bounds ⟨0, 100, 200, 100⟩ ⟨0, 0, 400, 600⟩).2.2 (by norm_num)⟩

end ImageToolbar

namespace CommandFlowMap

/-! ## One entry for each user, one group for each entry -/

theorem insertEntry_perm (entry : UserEntry) (userMap : List UserEntry) :
    List.Perm (insertEntry entry userMap) (entry :: userMap) := by
  induction userMap with
  | nil => exact List.Perm.refl _
  | cons e rest ih =>
      simp only [insertEntry]
      split
      · exact List.Perm.refl _
      · exact (List.Perm.cons e ih).trans (List.Perm.swap entry e rest)

theorem ids_addRole (role : Role) (userMap : List UserEntry) (user : AssignedUser) :
    List.Perm ((addRole role userMap user).map UserEntry.id)
      (if userMap.any (fun e => e.id == user.id) then userMap.map UserEntry.id
       else user.id :: userMap.map UserEntry.id) := by
  have hmap : ∀ (m : List UserEntry),
      (m.map fun e =>
        if e.id == user.id then
          ({ e with
            roles :=
              e.roles ++
                [{ id := role.id
                   name := role.name
                   description := role.description
                   cluster_level := role.cluster_level
                   cluster_name := role.cluster_name }] } : UserEntry)
        else e).map UserEntry.id = m.map UserEntry.id := by
    intro m
    rw [List.map_map]
    apply List.map_congr_left
    intro e _
    simp only [Function.comp]
    split <;> rfl
  unfold addRole
  simp only [hmap]
  split
  · exact List.Perm.refl _
  · exact (insertEntry_perm _ userMap).map UserEntry.id

theorem nodup_addRole (role : Role) (userMap : List UserEntry) (user : AssignedUser)
    (h : (userMap.map UserEntry.id).Nodup) :
    ((addRole role userMap user).map UserEntry.id).Nodup := by
  rw [(ids_addRole role userMap user).nodup_iff]
  split
  · exact h
  · next hany =>
      refine List.nodup_cons.mpr ⟨?_, h⟩
      intro hmem
      apply hany
      obtain ⟨e, he, hid⟩ := List.mem_map.mp hmem
      exact List.any_eq_true.mpr ⟨e, he, by simpa using hid⟩

theorem nodup_foldl_addRole (role : Role) (users : List AssignedUser) :
    ∀ userMap : List UserEntry, (userMap.map UserEntry.id).Nodup →
      ((users.foldl (addRole role) userMap).map UserEntry.id).Nodup := by
  induction users with
  | nil => intro userMap h; exact h
  | cons u rest ih =>
      intro userMap h
      exact ih _ (nodup_addRole role userMap u h)

theorem nodup_addRoleUsers (userMap : List UserEntry) (role : Role)
    (h : (userMap.map UserEntry.id).Nodup) :
    ((addRoleUsers userMap role).map UserEntry.id).Nodup := by
  unfold addRoleUsers
  split
  · split
    · exact nodup_foldl_addRole role _ userMap h
    · exact h
  · exact h

theorem nodup_getUserRolesMap (roles : List Role) :
    ((getUserRolesMap roles).map UserEntry.id).Nodup := by
  have key : ∀ (rs : List Role) (userMap : List UserEntry),
      (userMap.map UserEntry.id).Nodup →
      ((rs.foldl addRoleUsers userMap).map UserEntry.id).Nodup := by
    intro rs
    induction rs with
    | nil => intro userMap h; exact h
    | cons r rest ih =>
        intro userMap h
        exact ih _ (nodup_addRoleUsers userMap r h)
  exact key roles [] List.nodup_nil

theorem foldl_placeUser (users : List UserEntry) :
    ∀ g : Grouped,
      users.foldl placeUser g =
        { topCommand := g.topCommand ++ users.filter (hasLevel "top-command")
          middleManagement :=
            g.middleManagement ++
              users.filter fun u => !hasLevel "top-command" u && hasLevel "middle-management" u
          recruitingSpecialists :=
            g.recruitingSpecialists ++
              users.filter fun u =>
                !hasLevel "top-command" u && !hasLevel "middle-management" u &&
                  hasLevel "recruiting-specialists" u
          teamLeadership :=
            g.teamLeadership ++
              users.filter fun u =>
                !hasLevel "top-command" u && !hasLevel "middle-management" u &&
                  !hasLevel "recruiting-specialists" u && hasLevel "team-leadership" u } := by
  induction users with
  | nil => intro g; simp
  | cons u rest ih =>
      intro g
      rw [List.foldl_cons, ih]
      unfold placeUser
      cases h1 : hasLevel "top-command" u <;> cases h2 : hasLevel "middle-management" u <;>
        cases h3 : hasLevel "recruiting-specialists" u <;>
        cases h4 : hasLevel "team-leadership" u <;>
        simp [h1, h2, h3, h4, List.filter_cons]

theorem disjoint_filter_ids (users : List UserEntry) (h : (users.map UserEntry.id).Nodup)
    (p q : UserEntry → Bool) (hpq : ∀ u, p u = true → q u = true → False) :
    List.Disjoint ((users.filter p).map UserEntry.id) ((users.filter q).map UserEntry.id) := by
  intro x hx hy
  obtain ⟨u, hu, hux⟩ := List.mem_map.mp hx
  obtain ⟨v, hv, hvx⟩ := List.mem_map.mp hy
  rw [List.mem_filter] at hu hv
  have huv : u = v := List.inj_on_of_nodup_map h hu.1 hv.1 (hux.trans hvx.symm)
  subst huv
  exact hpq u hu.2 hv.2

theorem nodup_filter_ids (users : List UserEntry) (h : (users.map UserEntry.id).Nodup)
    (p : UserEntry → Bool) : ((users.filter p).map UserEntry.id).Nodup :=
  List.Nodup.sublist ((List.filter_sublist users).map UserEntry.id) h

end CommandFlowMap

namespace CommandFlowMap

/-- C27: every user of `getUserRolesMap` is placed by `groupUsersByLevel` in the group
of the highest cluster level among its roles, in the order `top-command`,
`middle-management`, `recruiting-specialists`, `team-leadership`, and in no other
group (in none when it has no role of these levels); `getUserRolesMap` holds one
entry for each user id, and no user id occurs twice across the four groups, however
many roles a user is assigned to. -/
theorem groupUsersByLevel_highest_level (roles : List Role) :
    (groupUsersByLevel roles).topCommand =
      (getUserRolesMap roles).filter (hasLevel "top-command") ∧
    (groupUsersByLevel roles).middleManagement =
      ((getUserRolesMap roles).filter fun u =>
        !hasLevel "top-command" u && hasLevel "middle-management" u) ∧
    (groupUsersByLevel roles).recruitingSpecialists =
      ((getUserRolesMap roles).filter fun u =>
        !hasLevel "top-command" u && !hasLevel "middle-management" u &&
          hasLevel "recruiting-specialists" u) ∧
    (groupUsersByLevel roles).teamLeadership =
      ((getUserRolesMap roles).filter fun u =>
        !hasLevel "top-command" u && !hasLevel "middle-management" u &&
          !hasLevel "recruiting-specialists" u && hasLevel "team-leadership" u) ∧
    ((getUserRolesMap roles).map UserEntry.id).Nodup ∧
    ((groupUsersByLevel roles).all.map UserEntry.id).Nodup := by
  have hg := foldl_placeUser (getUserRolesMap roles) ⟨[], [], [], []⟩
  have hn := nodup_getUserRolesMap roles
  have h1 : (groupUsersByLevel roles).topCommand =
      (getUserRolesMap roles).filter (hasLevel "top-command") := by
    unfold groupUsersByLevel; rw [hg]; simp
  have h2 : (groupUsersByLevel roles).middleManagement =
      ((getUserRolesMap roles).filter fun u =>
        !hasLevel "top-command" u && hasLevel "middle-management" u) := by
    unfold groupUsersByLevel; rw [hg]; simp
  have h3 : (groupUsersByLevel roles).recruitingSpecialists =
      ((getUserRolesMap roles).filter fun u =>
        !hasLevel "top-command" u && !hasLevel "middle-management" u &&
          hasLevel "recruiting-specialists" u) := by
    unfold groupUsersByLevel; rw [hg]; simp
  have h4 : (groupUsersByLevel roles).teamLeadership =
      ((getUserRolesMap roles).filter fun u =>
        !hasLevel "top-command" u && !hasLevel "middle-management" u &&
          !hasLevel "recruiting-specialists" u && hasLevel "team-leadership" u) := by
    unfold groupUsersByLevel; rw [hg]; simp
  refine ⟨h1, h2, h3, h4, hn, ?_⟩
  unfold Grouped.all
  rw [h1, h2, h3, h4]
  simp only [List.map_append]
  refine List.nodup_append.mpr ⟨List.nodup_append.mpr ⟨List.nodup_append.mpr
    ⟨nodup_filter_ids _ hn _, nodup_filter_ids _ hn _, ?_⟩, nodup_filter_ids _ hn _, ?_⟩,
    nodup_filter_ids _ hn _, ?_⟩
  · exact disjoint_filter_ids _ hn _ _ (by intro u ha hb; simp [ha] at hb)
  · rw [List.disjoint_append_left]
    exact ⟨disjoint_filter_ids _ hn _ _ (by intro u ha hb; simp [ha] at hb),
      disjoint_filter_ids _ hn _ _ (by
        intro u ha hb
        simp only [Bool.and_eq_true, Bool.not_eq_true'] at ha hb
        simp [ha.2] at hb)⟩
  · rw [List.disjoint_append_left, List.disjoint_append_left]
    exact ⟨⟨disjoint_filter_ids _ hn _ _ (by intro u ha hb; simp [ha] at hb),
      disjoint_filter_ids _ hn _ _ (by
        intro u ha hb
        simp only [Bool.and_eq_true, Bool.not_eq_true'] at ha hb
        simp [ha.2] at hb)⟩,
      disjoint_filter_ids _ hn _ _ (by
        intro u ha hb
        simp only [Bool.and_eq_true, Bool.not_eq_true'] at ha hb
        simp [ha.2] at hb)⟩

/-- A user with a team-leadership role and a top-command role, next to a user with a
recruiting role: the first is placed once, at the top. -/
theorem groupUsersByLevel_two_roles :
    groupUsersByLevel
        [⟨1, "Raid Lead", "", "team-leadership", "Teams", some [⟨7, "ana"⟩, ⟨7, "ana"⟩]⟩,
          ⟨2, "Guild Master", "", "top-command", "Command", some [⟨7, "ana"⟩]⟩,
          ⟨3, "Recruiter", "", "recruiting-specialists", "Recruiting", some [⟨4, "bo"⟩]⟩,
          ⟨4, "Vacant", "", "middle-management", "Officers", none⟩]
      = { topCommand :=
            [⟨7, "ana",
              [⟨1, "Raid Lead", "", "team-leadership", "Teams"⟩,
                ⟨1, "Raid Lead", "", "team-leadership", "Teams"⟩,
                ⟨2, "Guild Master", "", "top-command", "Command"⟩]⟩]
          middleManagement := []
          recruitingSpecialists :=
            [⟨4, "bo", [⟨3, "Recruiter", "", "recruiting-specialists", "Recruiting"⟩]⟩]
          teamLeadership := [] } := by
  decide

end CommandFlowMap

namespace ImageResizeHandles

/-! ## The active handle and the dragging flag -/

theorem dragEffect_handle (ed : Editor) (s : State) :
    (dragEffect ed s).activeHandle = s.activeHandle ∧
    ((dragEffect ed s).isDragging = true → s.isDragging = true) := by
  unfold dragEffect
  repeat' split
  all_goals first
    | exact ⟨rfl, fun h => h⟩
    | exact ⟨rfl, fun h => by simp at h⟩

theorem rerunDragEffect_handle (ed : Editor) (before after : State) :
    (rerunDragEffect ed before after).activeHandle = after.activeHandle ∧
    ((rerunDragEffect ed before after).isDragging = true → after.isDragging = true) := by
  unfold rerunDragEffect
  split
  · exact ⟨rfl, fun h => h⟩
  · exact dragEffect_handle ed _

/-- While `isDragging` is true a handle is active: one half of the equivalence holds
in every reachable state. -/
theorem activeHandle_of_isDragging (evs : List Event) :
    (run State.init evs).isDragging = true → (run State.init evs).activeHandle ≠ none := by
  have hstep : ∀ (s : State) (ev : Event),
      (s.isDragging = true → s.activeHandle ≠ none) →
      ((step s ev).isDragging = true → (step s ev).activeHandle ≠ none) := by
    intro s ev hs
    cases ev with
    | editorUpdate ed =>
        simp only [step]
        split
        · exact hs
        · obtain ⟨_, _, h3, h4, _⟩ := updateHandles_frame ed s
          rw [h3, h4]
          exact hs
    | mouseDown handle e targetCursor ed =>
        simp only [step]
        split
        · intro _
          rw [(rerunDragEffect_handle ed s _).1]
          simp [handleMouseDown]
        · exact hs
    | mouseMove e =>
        simp only [step]
        split
        · exact hs
        · exact hs
    | frame =>
        simp only [step]
        split
        · unfold animationFrame
          split
          · exact hs
          · exact hs
        · exact hs
    | mouseUp ed =>
        simp only [step]
        split
        · intro h
          have := (rerunDragEffect_handle ed s _).2 h
          simp [handleMouseUp] at this
        · exact hs
    | unmount => exact hs
  have hrun : ∀ (l : List Event) (s : State),
      (s.isDragging = true → s.activeHandle ≠ none) →
      ((run s l).isDragging = true → (run s l).activeHandle ≠ none) := by
    intro l
    induction l with
    | nil => intro s hs; exact hs
    | cons ev rest ih =>
        intro s hs
        exact ih (step s ev) (hstep s ev hs)
  exact hrun evs State.init (by intro h; simp [State.init] at h)

/-- C28 fails on the code: after mount and the selection of an image, a pointer-down
on the `se` handle while the editor is destroyed makes the drag effect abort with
`setIsDragging(false)` alone; the state reached has `isDragging` false, no listener,
and `activeHandle` still `se`, and a pointer-up no longer changes it. -/
theorem leftover_handle_after_abort :
    (run State.init [.editorUpdate imageEditor,
        .mouseDown .se ⟨0, 0⟩ "se-resize" destroyedEditor]).isDragging = false ∧
    (run State.init [.editorUpdate imageEditor,
        .mouseDown .se ⟨0, 0⟩ "se-resize" destroyedEditor]).activeHandle = some .se ∧
    (run State.init [.editorUpdate imageEditor,
        .mouseDown .se ⟨0, 0⟩ "se-resize" destroyedEditor]).session = none ∧
    (run State.init [.editorUpdate imageEditor,
        .mouseDown .se ⟨0, 0⟩ "se-resize" destroyedEditor,
        .mouseUp imageEditor]).activeHandle = some .se := by
  decide!

end ImageResizeHandles

namespace ClassSpecs

/-! ## Keys of the listed specialisations -/

theorem split_and_rebuild_listed :
    ∀ cd ∈ CLASS_SPECS, ∀ sp ∈ cd.specs,
      split (createSpecKey cd.className sp.name) '-' = [cd.className, sp.name] ∧
      rebuild (createSpecKey cd.className sp.name)
        = ⟨some cd.className, some sp.name, sp.category⟩ := by
  decide

/-- C29: for every class and specialisation listed in `CLASS_SPECS`, splitting
`createSpecKey(class, spec)` on `-` gives exactly the two pieces `class` and `spec`,
and the requirement rebuilt from the key has that class, that specialisation and its
category; `createSpecKey` sends different listed pairs to different keys. -/
theorem createSpecKey_roundtrip :
    (∀ cd ∈ CLASS_SPECS, ∀ sp ∈ cd.specs,
      split (createSpecKey cd.className sp.name) '-' = [cd.className, sp.name] ∧
      rebuild (createSpecKey cd.className sp.name)
        = ⟨some cd.className, some sp.name, sp.category⟩) ∧
    (∀ cd ∈ CLASS_SPECS, ∀ sp ∈ cd.specs, ∀ cd' ∈ CLASS_SPECS, ∀ sp' ∈ cd'.specs,
      createSpecKey cd.className sp.name = createSpecKey cd'.className sp'.name →
        cd.className = cd'.className ∧ sp.name = sp'.name) := by
  refine ⟨split_and_rebuild_listed, ?_⟩
  intro cd hcd sp hsp cd' hcd' sp' hsp' hkey
  have h1 := (split_and_rebuild_listed cd hcd sp hsp).1
  have h2 := (split_and_rebuild_listed cd' hcd' sp' hsp').1
  rw [hkey, h2] at h1
  simp only [List.cons.injEq, and_true] at h1
  exact ⟨h1.1.symm, h1.2.symm⟩

/-- The key of Beast Mastery, and the keys of the two Frost specialisations. -/
theorem createSpecKey_roundtrip_witness :
    (split (createSpecKey "Hunter" "Beast Mastery") '-' = ["Hunter", "Beast Mastery"] ∧
      rebuild (createSpecKey "Hunter" "Beast Mastery")
        = ⟨some "Hunter", some "Beast Mastery", RANGED_DPS⟩) ∧
    (createSpecKey "Death Knight" "Frost" = createSpecKey "Mage" "Frost" →
      "Death Knight" = "Mage" ∧ "Frost" = "Frost") :=
  ⟨createSpecKey_roundtrip.1
      ⟨"Hunter", "🏹", "#AAD372",
        [⟨"Beast Mastery", RANGED_DPS⟩, ⟨"Marksmanship", RANGED_DPS⟩,
          ⟨"Survival", MELEE_DPS⟩]⟩ (by decide)
      ⟨"Beast Mastery", RANGED_DPS⟩ (by decide),
    createSpecKey_roundtrip.2
      ⟨"Death Knight", "⚔️", "#C41E3A",
        [⟨"Blood", TANK⟩, ⟨"Frost", MELEE_DPS⟩, ⟨"Unholy", MELEE_DPS⟩]⟩ (by decide)
      ⟨"Frost", MELEE_DPS⟩ (by decide)
      ⟨"Mage", "🔮", "#3FC7EB",
        [⟨"Arcane", RANGED_DPS⟩, ⟨"Fire", RANGED_DPS⟩, ⟨"Frost", RANGED_DPS⟩]⟩ (by decide)
      ⟨"Frost", RANGED_DPS⟩ (by decide)⟩

end ClassSpecs
